import Mathlib

/-!
# bingo-sdk `oauth2`: a verification development

An embedding of `src/oauth2/oauth2.go` and of the parts of the Go standard
library it calls (`fmt`, `net/url`, `net/http`, `encoding/json`), followed by
theorems about the three public operations `GetToken`, `GetProfile` and
`GetWallet`.

Conventions.

* A Go `string` / `[]byte` is a sequence of bytes: `GoString = List Nat`, every
  element below 256.  `lit "..."` is the byte string of an ASCII literal.
* A Go result pair `(*T, error)` is `Option T × Option GoError`; `none` is `nil`.
* The network is an explicit parameter (`Env`): what `http.Get` and
  `(*http.Client).Do` answer, and what is left of `url.Parse` beyond the checks
  modelled here.
* A response body is a stream: the bytes it delivers and, possibly, the error
  with which reading stops.
* The standard library is the one of a current Go toolchain on a 64-bit
  platform: `int` has 64 bits, the JSON scanner refuses more than 10000 levels
  of nesting, `url.Parse` refuses control bytes.
* Loops of the library that are not structural are given fuel computed from
  the length of their input; the section on fuel proves that it is enough.
-/

namespace Oauth2

/-! ## Strings and errors -/

/-- A Go string or byte slice. -/
abbrev GoString := List Nat

/-- Bytes of an ASCII literal. -/
def lit (s : String) : GoString := s.toList.map Char.toNat

/-- Go error values, as far as the package tells them apart. -/
inductive GoError where
  /-- An error made by `fmt.Errorf`; the payload is its message. -/
  | errorf (msg : GoString)
  /-- An error of the transport (`http.Get`, `client.Do`, reading a body). -/
  | transport (msg : GoString)
  /-- An error of `url.Parse` / `http.NewRequest`. -/
  | url (msg : GoString)
  /-- A `*json.SyntaxError`. -/
  | jsonSyntax
  /-- A `*json.UnmarshalTypeError`: JSON value kind and Go field. -/
  | jsonType (value : GoString) (field : GoString)
  /-- The error `io.EOF`. -/
  | eof
  /-- The error `io.ErrUnexpectedEOF`. -/
  | unexpectedEOF
  deriving DecidableEq, Repr

/-! ## Config and the URL builders (oauth2.go 16-37) -/

/-- The struct `Config`. -/
structure Config where
  PlatformHost : GoString
  ClientID : GoString
  ClientSecret : GoString
  RedirectURI : GoString
  deriving DecidableEq, Repr

/-- The function `fmt.Sprintf` (and `fmt.Errorf`) for a format made of literal text around one
`%s` verb: the argument is inserted as it is. -/
def sprintf1 (before after arg : GoString) : GoString := before ++ arg ++ after

/-- The method `(*Config).GetTokenURL`. -/
def Config.GetTokenURL (c : Config) : GoString :=
  c.PlatformHost ++ lit "/oauth2/v1/token"

/-- The method `(*Config).GetProfileURL`. -/
def Config.GetProfileURL (c : Config) (accessToken : GoString) : GoString :=
  c.PlatformHost ++ sprintf1 (lit "/oauth2/v1/profile?access_token=") [] accessToken

/-- The method `(*Config).GetWalletURL`. -/
def Config.GetWalletURL (c : Config) (accessToken : GoString) : GoString :=
  c.PlatformHost ++ sprintf1 (lit "/oauth2/v1/wallet?access_token=") (lit "&type=qtum") accessToken

/-! ## The error envelope (oauth2.go 39-48) -/

/-- The struct `Error`, named `ApiError` here to keep it apart from Go's
`error` interface. -/
structure ApiError where
  Error : GoString
  Description : GoString
  deriving DecidableEq, Repr

/-- The method `(*Error).Message`: `fmt.Sprintf("%s: %s", e.Error, e.Description)`. -/
def ApiError.Message (e : ApiError) : GoString :=
  e.Error ++ lit ": " ++ e.Description

/-! ## HTTP responses and the transport helper (oauth2.go 77-91) -/

/-- A response body as `io.Reader`: the bytes it delivers before it stops, and
the error it stops with (`none` is a clean end of stream). -/
structure BodyStream where
  data : GoString
  readErr : Option GoError
  deriving DecidableEq, Repr

/-- The fields of `http.Response` the package reads. -/
structure Response where
  StatusCode : Int
  Status : GoString
  Body : BodyStream
  deriving DecidableEq, Repr

/-- The function `ioutil.ReadAll`: everything read, and the error unless it is the end of
the stream. -/
def readAll (b : BodyStream) : GoString × Option GoError := (b.data, b.readErr)

/-- The constant `http.StatusOK`. -/
def StatusOK : Int := 200

/-! ## `encoding/json`: the scanner (scanner.go)

The scanner is a state machine fed one byte at a time.  `Step` names the state
functions, `Op` the codes they return, `ParseState` the entries of the nesting
stack.  The pending syntax error `s.err` is set exactly when the state is
`stateError`, so it is not a field of its own. -/

/-- The state functions of the scanner (`s.step`). -/
inductive Step where
  | beginValueOrEmpty | beginValue | beginStringOrEmpty | beginString
  | endValue | endTop
  | inString | inStringEsc | inStringEscU | inStringEscU1 | inStringEscU12 | inStringEscU123
  | neg | s1 | s0 | dot | dot0 | e | eSign | e0
  | t | tr | tru | f | fa | fal | fals | n | nu | nul
  | error
  deriving DecidableEq, Repr

/-- The scan codes (`scanContinue` ... `scanError`). -/
inductive Op where
  | continue | beginLiteral | beginObject | objectKey | objectValue | endObject
  | beginArray | arrayValue | endArray | skipSpace
  | end | error
  deriving DecidableEq, Repr

/-- Entries of the stack `s.parseState`. -/
inductive ParseState where
  | objectKey | objectValue | arrayValue
  deriving DecidableEq, Repr

/-- The struct `scanner`; the head of `parseState` is the innermost entry. -/
structure Scanner where
  step : Step
  endTop : Bool
  parseState : List ParseState
  deriving DecidableEq, Repr

/-- The constant `maxNestingDepth`. -/
def maxNestingDepth : Nat := 10000

/-- The method `(*scanner).reset`. -/
def Scanner.reset : Scanner := ⟨.beginValue, false, []⟩

/-- The function `isSpace`: space, tab, carriage return, line feed. -/
def isSpace (c : Nat) : Bool := c == 32 || c == 9 || c == 13 || c == 10

/-- Decimal digit `'0'..'9'`. -/
def isDigit (c : Nat) : Bool := 48 ≤ c && c ≤ 57

/-- Hexadecimal digit, either case. -/
def isHex (c : Nat) : Bool := isDigit c || (97 ≤ c && c ≤ 102) || (65 ≤ c && c ≤ 70)

/-- The method `(*scanner).error`: record the error, go to `stateError`. -/
def Scanner.error (s : Scanner) : Scanner × Op := ({ s with step := .error }, .error)

/-- Stay in the scanner, moving to state `st`, with code `op`. -/
def Scanner.goto (s : Scanner) (st : Step) (op : Op) : Scanner × Op :=
  ({ s with step := st }, op)

/-- The method `(*scanner).pushParseState`, with `s.step` already set to `st`. -/
def Scanner.pushParseState (s : Scanner) (st : Step) (p : ParseState) (op : Op) : Scanner × Op :=
  let s1 : Scanner := { s with step := st, parseState := p :: s.parseState }
  if s1.parseState.length ≤ maxNestingDepth then (s1, op) else s1.error

/-- The method `(*scanner).popParseState`. -/
def Scanner.popParseState (s : Scanner) : Scanner :=
  match s.parseState.tail with
  | [] => { s with parseState := [], step := .endTop, endTop := true }
  | rest => { s with parseState := rest, step := .endValue }

/-- The function `stateEndTop`: a non-space byte records an error; the code is `scanEnd`
either way. -/
def stateEndTop (s : Scanner) (c : Nat) : Scanner × Op :=
  if isSpace c then (s, .end) else ((s.error).1, .end)

/-- The function `stateEndValue`. -/
def stateEndValue (s : Scanner) (c : Nat) : Scanner × Op :=
  match s.parseState with
  | [] => stateEndTop { s with step := .endTop, endTop := true } c
  | ps :: rest =>
    if isSpace c then s.goto .endValue .skipSpace
    else match ps with
      | .objectKey =>
        if c = 58 then ({ s with parseState := .objectValue :: rest, step := .beginValue }, .objectKey)
        else s.error
      | .objectValue =>
        if c = 44 then ({ s with parseState := .objectKey :: rest, step := .beginString }, .objectValue)
        else if c = 125 then (s.popParseState, .endObject)
        else s.error
      | .arrayValue =>
        if c = 44 then s.goto .beginValue .arrayValue
        else if c = 93 then (s.popParseState, .endArray)
        else s.error

/-- The function `stateBeginValue`. -/
def stateBeginValue (s : Scanner) (c : Nat) : Scanner × Op :=
  if isSpace c then (s, .skipSpace)
  else if c = 123 then s.pushParseState .beginStringOrEmpty .objectKey .beginObject
  else if c = 91 then s.pushParseState .beginValueOrEmpty .arrayValue .beginArray
  else if c = 34 then s.goto .inString .beginLiteral
  else if c = 45 then s.goto .neg .beginLiteral
  else if c = 48 then s.goto .s0 .beginLiteral
  else if c = 116 then s.goto .t .beginLiteral
  else if c = 102 then s.goto .f .beginLiteral
  else if c = 110 then s.goto .n .beginLiteral
  else if 49 ≤ c ∧ c ≤ 57 then s.goto .s1 .beginLiteral
  else s.error

/-- The function `stateBeginValueOrEmpty`. -/
def stateBeginValueOrEmpty (s : Scanner) (c : Nat) : Scanner × Op :=
  if isSpace c then (s, .skipSpace)
  else if c = 93 then stateEndValue s c
  else stateBeginValue s c

/-- The function `stateBeginString`. -/
def stateBeginString (s : Scanner) (c : Nat) : Scanner × Op :=
  if isSpace c then (s, .skipSpace)
  else if c = 34 then s.goto .inString .beginLiteral
  else s.error

/-- The function `stateBeginStringOrEmpty`. -/
def stateBeginStringOrEmpty (s : Scanner) (c : Nat) : Scanner × Op :=
  if isSpace c then (s, .skipSpace)
  else if c = 125 then
    stateEndValue { s with parseState := .objectValue :: s.parseState.tail } c
  else stateBeginString s c

/-- The function `stateInString`. -/
def stateInString (s : Scanner) (c : Nat) : Scanner × Op :=
  if c = 34 then s.goto .endValue .continue
  else if c = 92 then s.goto .inStringEsc .continue
  else if c < 32 then s.error
  else (s, .continue)

/-- The function `stateInStringEsc`. -/
def stateInStringEsc (s : Scanner) (c : Nat) : Scanner × Op :=
  if c = 98 ∨ c = 102 ∨ c = 110 ∨ c = 114 ∨ c = 116 ∨ c = 92 ∨ c = 47 ∨ c = 34 then
    s.goto .inString .continue
  else if c = 117 then s.goto .inStringEscU .continue
  else s.error

/-- The functions `stateInStringEscU`, `...U1`, `...U12`, `...U123`: a hex digit moves on
to `next`. -/
def stateHex (s : Scanner) (next : Step) (c : Nat) : Scanner × Op :=
  if isHex c then s.goto next .continue else s.error

/-- The function `state0`: after a leading `0`, or after the integer digits. -/
def state0 (s : Scanner) (c : Nat) : Scanner × Op :=
  if c = 46 then s.goto .dot .continue
  else if c = 101 ∨ c = 69 then s.goto .e .continue
  else stateEndValue s c

/-- The function `state1`. -/
def state1 (s : Scanner) (c : Nat) : Scanner × Op :=
  if isDigit c then s.goto .s1 .continue else state0 s c

/-- The function `stateNeg`. -/
def stateNeg (s : Scanner) (c : Nat) : Scanner × Op :=
  if c = 48 then s.goto .s0 .continue
  else if 49 ≤ c ∧ c ≤ 57 then s.goto .s1 .continue
  else s.error

/-- The function `stateDot`. -/
def stateDot (s : Scanner) (c : Nat) : Scanner × Op :=
  if isDigit c then s.goto .dot0 .continue else s.error

/-- The function `stateDot0`. -/
def stateDot0 (s : Scanner) (c : Nat) : Scanner × Op :=
  if isDigit c then (s, .continue)
  else if c = 101 ∨ c = 69 then s.goto .e .continue
  else stateEndValue s c

/-- The function `stateESign`. -/
def stateESign (s : Scanner) (c : Nat) : Scanner × Op :=
  if isDigit c then s.goto .e0 .continue else s.error

/-- The function `stateE`. -/
def stateE (s : Scanner) (c : Nat) : Scanner × Op :=
  if c = 43 ∨ c = 45 then s.goto .eSign .continue else stateESign s c

/-- The function `stateE0`. -/
def stateE0 (s : Scanner) (c : Nat) : Scanner × Op :=
  if isDigit c then (s, .continue) else stateEndValue s c

/-- The letter states of `true`, `false`, `null`: the expected letter moves on to `next`. -/
def stateLetter (s : Scanner) (expect : Nat) (next : Step) (c : Nat) : Scanner × Op :=
  if c = expect then s.goto next .continue else s.error

/-- One call `s.step(s, c)`. -/
def Scanner.next (s : Scanner) (c : Nat) : Scanner × Op :=
  match s.step with
  | .beginValueOrEmpty => stateBeginValueOrEmpty s c
  | .beginValue => stateBeginValue s c
  | .beginStringOrEmpty => stateBeginStringOrEmpty s c
  | .beginString => stateBeginString s c
  | .endValue => stateEndValue s c
  | .endTop => stateEndTop s c
  | .inString => stateInString s c
  | .inStringEsc => stateInStringEsc s c
  | .inStringEscU => stateHex s .inStringEscU1 c
  | .inStringEscU1 => stateHex s .inStringEscU12 c
  | .inStringEscU12 => stateHex s .inStringEscU123 c
  | .inStringEscU123 => stateHex s .inString c
  | .neg => stateNeg s c
  | .s1 => state1 s c
  | .s0 => state0 s c
  | .dot => stateDot s c
  | .dot0 => stateDot0 s c
  | .e => stateE s c
  | .eSign => stateESign s c
  | .e0 => stateE0 s c
  | .t => stateLetter s 114 .tr c
  | .tr => stateLetter s 117 .tru c
  | .tru => stateLetter s 101 .endValue c
  | .f => stateLetter s 97 .fa c
  | .fa => stateLetter s 108 .fal c
  | .fal => stateLetter s 115 .fals c
  | .fals => stateLetter s 101 .endValue c
  | .n => stateLetter s 117 .nu c
  | .nu => stateLetter s 108 .nul c
  | .nul => stateLetter s 108 .endValue c
  | .error => (s, .error)

/-- The method `(*scanner).eof`: `true` for `scanEnd`, `false` for `scanError`. -/
def Scanner.eof (s : Scanner) : Bool :=
  if s.step = .error then false
  else if s.endTop then true
  else (s.next 32).1.endTop

/-- The loop of `checkValid` from scanner state `s`: `true` when the bytes are accepted. -/
def scanValid (s : Scanner) : GoString → Bool
  | [] => s.eof
  | c :: cs =>
    match s.next c with
    | (_, .error) => false
    | (s1, _) => scanValid s1 cs

/-- The function `checkValid`: `none` when `data` is one JSON value between optional white space,
a syntax error otherwise. -/
def checkValid (data : GoString) : Option GoError :=
  if scanValid Scanner.reset data then none else some .jsonSyntax

/-- The function `nonSpace`. -/
def nonSpace (b : GoString) : Bool := b.any (fun c => !isSpace c)

/-- The scan loop of `(*Decoder).readValue` over the bytes still unread, `n` bytes of
the value being scanned already: the length of the first value, or the error. -/
def readValueLoop (s : Scanner) (readErr : Option GoError) (all : GoString) (n : Nat) :
    GoString → Except GoError Nat
  | [] =>
    match readErr with
    | some e => .error e
    | none =>
      if (s.next 32).2 = .end then .ok n
      else if nonSpace all then .error .unexpectedEOF
      else .error .eof
  | c :: cs =>
    match s.next c with
    | (_, .end) => .ok n
    | (s1, .endObject) =>
      match stateEndValue s1 32 with
      | (_, .end) => .ok (n + 1)
      | (s2, _) => readValueLoop s2 readErr all (n + 1) cs
    | (s1, .endArray) =>
      match stateEndValue s1 32 with
      | (_, .end) => .ok (n + 1)
      | (s2, _) => readValueLoop s2 readErr all (n + 1) cs
    | (_, .error) => .error .jsonSyntax
    | (s1, _) => readValueLoop s1 readErr all (n + 1) cs

/-- The method `(*Decoder).readValue` on a fresh decoder: the bytes of the first JSON
value of the stream, leading white space included. -/
def readValue (b : BodyStream) : Except GoError GoString :=
  match readValueLoop Scanner.reset b.readErr b.data 0 b.data with
  | .ok n => .ok (b.data.take n)
  | .error e => .error e

/-! ## `unicode/utf8`, `unicode/utf16` and string literals (decode.go) -/

/-- The rune `utf8.RuneError`, which is `unicode.ReplacementChar`. -/
def RuneError : Nat := 0xFFFD

/-- Continuation byte `0x80..0xBF`. -/
def isCont (b : Nat) : Bool := 0x80 ≤ b && b ≤ 0xBF

/-- The function `utf8.DecodeRune` on a non-empty slice: the rune and its width; an
ill-formed sequence gives `(RuneError, 1)`. -/
def decodeRune : GoString → Nat × Nat
  | [] => (RuneError, 0)
  | p0 :: rest =>
    if p0 < 0x80 then (p0, 1)
    else if p0 < 0xC2 then (RuneError, 1)
    else if p0 < 0xE0 then
      match rest with
      | b1 :: _ => if isCont b1 then ((p0 % 32) * 64 + b1 % 64, 2) else (RuneError, 1)
      | _ => (RuneError, 1)
    else if p0 < 0xF0 then
      match rest with
      | b1 :: b2 :: _ =>
        let lo := if p0 == 0xE0 then 0xA0 else 0x80
        let hi := if p0 == 0xED then 0x9F else 0xBF
        if lo ≤ b1 && b1 ≤ hi && isCont b2 then
          ((p0 % 16) * 4096 + (b1 % 64) * 64 + b2 % 64, 3)
        else (RuneError, 1)
      | _ => (RuneError, 1)
    else if p0 < 0xF5 then
      match rest with
      | b1 :: b2 :: b3 :: _ =>
        let lo := if p0 == 0xF0 then 0x90 else 0x80
        let hi := if p0 == 0xF4 then 0x8F else 0xBF
        if lo ≤ b1 && b1 ≤ hi && isCont b2 && isCont b3 then
          ((p0 % 8) * 262144 + (b1 % 64) * 4096 + (b2 % 64) * 64 + b3 % 64, 4)
        else (RuneError, 1)
      | _ => (RuneError, 1)
    else (RuneError, 1)

/-- The function `utf8.EncodeRune`; surrogates and runes past `MaxRune` are written as
`RuneError`. -/
def encodeRune (r : Nat) : GoString :=
  if r < 0x80 then [r]
  else if r < 0x800 then [0xC0 + r / 64, 0x80 + r % 64]
  else if (0xD800 ≤ r && r < 0xE000) || 0x10FFFF < r then [0xEF, 0xBF, 0xBD]
  else if r < 0x10000 then [0xE0 + r / 4096, 0x80 + (r / 64) % 64, 0x80 + r % 64]
  else [0xF0 + r / 262144, 0x80 + (r / 4096) % 64, 0x80 + (r / 64) % 64, 0x80 + r % 64]

/-- Value of one hexadecimal digit. -/
def hexVal (c : Nat) : Option Nat :=
  if isDigit c then some (c - 48)
  else if 97 ≤ c && c ≤ 102 then some (c - 97 + 10)
  else if 65 ≤ c && c ≤ 70 then some (c - 65 + 10)
  else none

/-- The function `getu4`: the rune of a leading `\uXXXX`, `none` for Go's `-1`. -/
def getu4 : GoString → Option Nat
  | 92 :: 117 :: a :: b :: c :: d :: _ =>
    match hexVal a, hexVal b, hexVal c, hexVal d with
    | some a, some b, some c, some d => some (((a * 16 + b) * 16 + c) * 16 + d)
    | _, _, _, _ => none
  | _ => none

/-- The function `utf16.IsSurrogate`. -/
def isSurrogate (r : Nat) : Bool := 0xD800 ≤ r && r < 0xE000

/-- The function `utf16.DecodeRune`, with `none` for the second half that `getu4` did not
find. -/
def utf16DecodeRune (r1 : Nat) (r2 : Option Nat) : Nat :=
  match r2 with
  | some r2 =>
    if 0xD800 ≤ r1 && r1 < 0xDC00 && 0xDC00 ≤ r2 && r2 < 0xE000 then
      (r1 - 0xD800) * 1024 + (r2 - 0xDC00) + 0x10000
    else RuneError
  | none => RuneError

/-- The copying loop of `unquoteBytes` on the bytes between the quotes.  (Go returns
the input itself when nothing needs rewriting; the loop gives the same bytes.) -/
def unquoteLoop : Nat → GoString → Option GoString
  | 0, _ => none
  | fuel + 1, s =>
    match s with
    | [] => some []
    | c :: rest =>
      if c == 92 then
        match rest with
        | [] => none
        | e :: rest1 =>
          if e == 34 || e == 92 || e == 47 || e == 39 then (unquoteLoop fuel rest1).map (e :: ·)
          else if e == 98 then (unquoteLoop fuel rest1).map (8 :: ·)
          else if e == 102 then (unquoteLoop fuel rest1).map (12 :: ·)
          else if e == 110 then (unquoteLoop fuel rest1).map (10 :: ·)
          else if e == 114 then (unquoteLoop fuel rest1).map (13 :: ·)
          else if e == 116 then (unquoteLoop fuel rest1).map (9 :: ·)
          else if e == 117 then
            match getu4 s with
            | none => none
            | some rr =>
              let after := s.drop 6
              if isSurrogate rr then
                let dec := utf16DecodeRune rr (getu4 after)
                if dec != RuneError then
                  (unquoteLoop fuel (after.drop 6)).map (encodeRune dec ++ ·)
                else (unquoteLoop fuel after).map (encodeRune RuneError ++ ·)
              else (unquoteLoop fuel after).map (encodeRune rr ++ ·)
          else none
      else if c == 34 || c < 32 then none
      else if c < 0x80 then (unquoteLoop fuel rest).map (c :: ·)
      else
        let (rr, size) := decodeRune s
        (unquoteLoop fuel (s.drop size)).map (encodeRune rr ++ ·)

/-- The function `unquoteBytes`, applied to the bytes between the two quotes of a string
literal. -/
def unquote (s : GoString) : Option GoString := unquoteLoop (s.length + 1) s

/-! ## Reading the members of an object (decode.go)

`decodeState` walks bytes that the scanner has accepted.  Decoding into the
three response structs never looks inside a nested array or object (it is
either skipped or a type error), so a value is read as its kind and, for a
literal, its text.  The functions are defined on every byte string; they mean
what Go does on the strings the scanner accepts. -/

/-- A JSON value as the struct decoder sees it. -/
inductive JVal where
  | null
  | bool (b : Bool)
  | number (item : GoString)
  | string (s : GoString)
  | array
  | object
  deriving DecidableEq, Repr

/-- Drop leading white space (`scanWhile(scanSkipSpace)`). -/
def skipSpace : GoString → GoString
  | [] => []
  | c :: cs => if isSpace c then skipSpace cs else c :: cs

/-- The string case of `rescanLiteral`, after the opening quote: the bytes up to the
closing quote and the bytes after it; a backslash takes the next byte with it. -/
def scanString : GoString → GoString × GoString
  | [] => ([], [])
  | 92 :: c :: rest => let (a, b) := scanString rest; (92 :: c :: a, b)
  | c :: rest =>
    if c == 34 then ([], rest) else let (a, b) := scanString rest; (c :: a, b)

/-- Bytes a number literal is made of, in `rescanLiteral`. -/
def isNumberByte (c : Nat) : Bool :=
  isDigit c || c == 46 || c == 101 || c == 69 || c == 43 || c == 45

/-- The number case of `rescanLiteral`: the literal and the bytes after it. -/
def scanNumber (data : GoString) : GoString × GoString := data.span isNumberByte

/-- The method `(*decodeState).skip`, after the opening bracket of an array or object: the bytes
after its closing bracket.  `depth` counts the brackets still open beyond the
first; brackets inside string literals do not count. -/
def skipNested : Nat → Bool → Bool → GoString → GoString
  | _, _, _, [] => []
  | depth, true, true, _ :: rest => skipNested depth true false rest
  | depth, true, false, c :: rest =>
    if c == 92 then skipNested depth true true rest
    else if c == 34 then skipNested depth false false rest
    else skipNested depth true false rest
  | depth, false, _, c :: rest =>
    if c == 34 then skipNested depth true false rest
    else if c == 123 || c == 91 then skipNested (depth + 1) false false rest
    else if c == 125 || c == 93 then
      match depth with
      | 0 => rest
      | d + 1 => skipNested d false false rest
    else skipNested depth false false rest

/-- One value starting at the head of `data` (white space already skipped): its kind
and the bytes after it. -/
def readJVal (data : GoString) : JVal × GoString :=
  match data with
  | [] => (.null, [])
  | c :: rest =>
    if c == 123 then (.object, skipNested 0 false false rest)
    else if c == 91 then (.array, skipNested 0 false false rest)
    else if c == 34 then
      let (raw, after) := scanString rest
      (.string ((unquote raw).getD []), after)
    else if c == 110 then (.null, rest.drop 3)
    else if c == 116 then (.bool true, rest.drop 3)
    else if c == 102 then (.bool false, rest.drop 4)
    else let (item, after) := scanNumber data; (.number item, after)

/-- The loop of `(*decodeState).object`, after the opening brace or after a comma: the
members in the order of the text, keys unquoted. -/
def objectMembers : Nat → GoString → List (GoString × JVal)
  | 0, _ => []
  | fuel + 1, data =>
    match skipSpace data with
    | 34 :: rest =>
      let (raw, after) := scanString rest
      match unquote raw, skipSpace after with
      | some key, 58 :: afterColon =>
        let (v, afterValue) := readJVal (skipSpace afterColon)
        match skipSpace afterValue with
        | 44 :: more => (key, v) :: objectMembers fuel more
        | _ => [(key, v)]
      | _, _ => []
    | _ => []

/-! ## `strconv`: numbers -/

/-- Value of a string of decimal digits read left to right, from `acc`; `none` at a byte
that is not a digit. -/
def digitsValue (acc : Nat) : GoString → Option Nat
  | [] => some acc
  | c :: cs => if isDigit c then digitsValue (acc * 10 + (c - 48)) cs else none

/-- Width of Go's `int` (a 64-bit platform). -/
def intSize : Nat := 64

/-- The sign that `strconv.ParseInt` takes off the front: whether it is `-`, and the rest. -/
def splitSign : GoString → Bool × GoString
  | 45 :: rest => (true, rest)
  | 43 :: rest => (false, rest)
  | item => (false, item)

/-- The function `strconv.ParseInt(s, 10, 64)` followed by `OverflowInt` for a target of
`bits` bits: an optional sign and at least one digit, within range. -/
def parseInt (bits : Nat) (item : GoString) : Option Int :=
  match splitSign item with
  | (_, []) => none
  | (neg, ds) =>
    match digitsValue 0 ds with
    | none => none
    | some n =>
      if neg then (if n ≤ 2 ^ (bits - 1) then some (-(n : Int)) else none)
      else if n < 2 ^ (bits - 1) then some (n : Int) else none

/-- A finite `float64`: the value is `± mant * 2 ^ exp`, with `2^52 ≤ mant < 2^53` for a
normal number and `exp = -1074` for a subnormal number or zero. -/
structure Float64 where
  neg : Bool
  mant : Nat
  exp : Int
  deriving DecidableEq, Repr

/-- Floor of the binary logarithm, `0` at `0`. -/
def log2Floor : Nat → Nat → Nat
  | 0, _ => 0
  | fuel + 1, n => if n < 2 then 0 else 1 + log2Floor fuel (n / 2)

/-- Quotient `n / d` rounded to the nearest integer, ties to even. -/
def divRoundEven (n d : Nat) : Nat :=
  let q := n / d
  let r := n % d
  if 2 * r < d then q
  else if d < 2 * r then q + 1
  else if q % 2 == 0 then q else q + 1

/-- Round the positive rational `num / den` to the nearest `float64`; `none` when the
result is out of range (Go's `ErrRange` with an infinite result). -/
def roundFloat64 (neg : Bool) (num den : Nat) : Option Float64 :=
  if num == 0 then some ⟨neg, 0, -1074⟩
  else
    let k0 : Int := (log2Floor num num : Int) - (log2Floor den den : Int)
    let ge : Bool := if 0 ≤ k0 then den * 2 ^ k0.toNat ≤ num else den ≤ num * 2 ^ (-k0).toNat
    let k : Int := if ge then k0 else k0 - 1
    let e : Int := max k (-1022)
    let u : Int := e - 52
    let mant : Nat :=
      if 0 ≤ u then divRoundEven num (den * 2 ^ u.toNat) else divRoundEven (num * 2 ^ (-u).toNat) den
    let (mant, u) : Nat × Int := if mant == 2 ^ 53 then (2 ^ 52, u + 1) else (mant, u)
    if 2 ^ 52 ≤ mant && 1023 < u + 52 then none else some ⟨neg, mant, u⟩

/-- The function `strconv.ParseFloat(s, 64)` on a number literal the scanner accepted: sign,
integer digits, optional fraction, optional exponent. -/
def parseFloat (item : GoString) : Option Float64 :=
  let (neg, rest) : Bool × GoString :=
    match item with
    | 45 :: rest => (true, rest)
    | _ => (false, item)
  let (intDs, rest) := rest.span isDigit
  let (fracDs, rest) : GoString × GoString :=
    match rest with
    | 46 :: r => r.span isDigit
    | _ => ([], rest)
  let exp10 : Option Int :=
    match rest with
    | [] => some 0
    | c :: r =>
      if c == 101 || c == 69 then
        match r with
        | 45 :: ds => (digitsValue 0 ds).map (fun n => -(n : Int))
        | 43 :: ds => (digitsValue 0 ds).map (fun n => (n : Int))
        | ds => (digitsValue 0 ds).map (fun n => (n : Int))
      else none
  match intDs, digitsValue 0 (intDs ++ fracDs), exp10 with
  | _ :: _, some m, some e =>
    let e10 : Int := e - fracDs.length
    if 0 ≤ e10 then roundFloat64 neg (m * 10 ^ e10.toNat) 1
    else roundFloat64 neg m (10 ^ (-e10).toNat)
  | _, _, _ => none

/-! ## The response structs (oauth2.go 50-75) -/

/-- The struct `Token`; the embedded `*Error` is `nil` until the decoder meets one of its
keys. -/
structure Token where
  Error : Option ApiError
  AccessToken : GoString
  TokenType : GoString
  ExpiresIn : Int
  RefreshToken : GoString
  deriving DecidableEq, Repr

/-- The struct `Profile`. -/
structure Profile where
  Error : Option ApiError
  Code : Int
  ID : Int
  Nickname : GoString
  Email : GoString
  Phone : GoString
  deriving DecidableEq, Repr

/-- The struct `Wallet`. -/
structure Wallet where
  Error : Option ApiError
  Code : Int
  Address : GoString
  Balance : Float64
  deriving DecidableEq, Repr

/-- Zero value of `Token` (`var token Token`). -/
def Token.zero : Token := ⟨none, [], [], 0, []⟩

/-- Zero value of `Profile`. -/
def Profile.zero : Profile := ⟨none, 0, 0, [], [], []⟩

/-- Zero value of `Wallet`. -/
def Wallet.zero : Wallet := ⟨none, 0, [], ⟨false, 0, -1074⟩⟩

/-! ## Decoding an object into a struct (decode.go, fold.go) -/

/-- An ASCII letter. -/
def isLetter (c : Nat) : Bool := (65 ≤ c && c ≤ 90) || (97 ≤ c && c ≤ 122)

/-- Case-insensitive match of a JSON key against an ASCII field name, as `encoding/json`
folds names: letters match in either case, and `ſ` (U+017F) and the Kelvin sign
(U+212A) match `s` and `k`. -/
def equalFold : GoString → GoString → Bool
  | [], [] => true
  | [], _ :: _ => false
  | _ :: _, [] => false
  | sb :: s, tb :: t =>
    if tb < 0x80 then
      if sb == tb then equalFold s t
      else if isLetter sb && isLetter tb && sb % 32 == tb % 32 then equalFold s t
      else false
    else if sb == 115 || sb == 83 then
      match tb :: t with
      | 0xC5 :: 0xBF :: t1 => equalFold s t1
      | _ => false
    else if sb == 107 || sb == 75 then
      match tb :: t with
      | 0xE2 :: 0x84 :: 0xAA :: t1 => equalFold s t1
      | _ => false
    else false

/-- Index of the first name for which `p` holds. -/
def findIndex (p : GoString → Bool) : List GoString → Option Nat
  | [] => none
  | n :: ns => if p n then some 0 else (findIndex p ns).map (· + 1)

/-- The field a key decodes into: the field with exactly this name, else the first field
whose name matches case-insensitively. -/
def findField (names : List GoString) (key : GoString) : Option Nat :=
  match findIndex (fun n => n == key) names with
  | some i => some i
  | none => findIndex (fun n => equalFold n key) names

/-- The method `literalStore` / `object` / `array` for a field of kind `string`: the new value and the
type error, if any. -/
def storeString (field : GoString) (v : JVal) (cur : GoString) : GoString × Option GoError :=
  match v with
  | .null => (cur, none)
  | .string s => (s, none)
  | .bool _ => (cur, some (.jsonType (lit "bool") field))
  | .number _ => (cur, some (.jsonType (lit "number") field))
  | .array => (cur, some (.jsonType (lit "array") field))
  | .object => (cur, some (.jsonType (lit "object") field))

/-- The same for a field of an integer kind of `bits` bits. -/
def storeInt (bits : Nat) (field : GoString) (v : JVal) (cur : Int) : Int × Option GoError :=
  match v with
  | .null => (cur, none)
  | .number item =>
    match parseInt bits item with
    | some n => (n, none)
    | none => (cur, some (.jsonType (lit "number " ++ item) field))
  | .string _ => (cur, some (.jsonType (lit "string") field))
  | .bool _ => (cur, some (.jsonType (lit "bool") field))
  | .array => (cur, some (.jsonType (lit "array") field))
  | .object => (cur, some (.jsonType (lit "object") field))

/-- The same for a field of kind `float64`. -/
def storeFloat (field : GoString) (v : JVal) (cur : Float64) : Float64 × Option GoError :=
  match v with
  | .null => (cur, none)
  | .number item =>
    match parseFloat item with
    | some x => (x, none)
    | none => (cur, some (.jsonType (lit "number " ++ item) field))
  | .string _ => (cur, some (.jsonType (lit "string") field))
  | .bool _ => (cur, some (.jsonType (lit "bool") field))
  | .array => (cur, some (.jsonType (lit "array") field))
  | .object => (cur, some (.jsonType (lit "object") field))

/-- The embedded `*Error` of a struct about to receive one of its two fields: allocated
if it is `nil`. -/
def allocError (e : Option ApiError) : ApiError := e.getD ⟨[], []⟩

/-- Store `v` into field `i` of the embedded `Error` (`0` is `error`, `1` is
`error_description`). -/
def storeError (e : Option ApiError) (i : Nat) (v : JVal) : Option ApiError × Option GoError :=
  let a := allocError e
  match i with
  | 0 => let (x, err) := storeString (lit "error") v a.Error; (some { a with Error := x }, err)
  | _ =>
    let (x, err) := storeString (lit "error_description") v a.Description
    (some { a with Description := x }, err)

/-- JSON names of the fields of `Token`, in index order, the promoted fields of the
embedded `*Error` first. -/
def Token.fields : List GoString :=
  [lit "error", lit "error_description", lit "access_token", lit "token_type", lit "expires_in",
   lit "refresh_token"]

/-- JSON names of the fields of `Profile`. -/
def Profile.fields : List GoString :=
  [lit "error", lit "error_description", lit "code", lit "id", lit "nickname", lit "email",
   lit "phone"]

/-- JSON names of the fields of `Wallet`. -/
def Wallet.fields : List GoString :=
  [lit "error", lit "error_description", lit "code", lit "address", lit "balance"]

/-- Store a value into field `i` of a `Token`. -/
def Token.set (t : Token) (i : Nat) (v : JVal) : Token × Option GoError :=
  match i with
  | 0 | 1 => let (e, err) := storeError t.Error i v; ({ t with Error := e }, err)
  | 2 => let (x, err) := storeString (lit "access_token") v t.AccessToken; ({ t with AccessToken := x }, err)
  | 3 => let (x, err) := storeString (lit "token_type") v t.TokenType; ({ t with TokenType := x }, err)
  | 4 => let (x, err) := storeInt intSize (lit "expires_in") v t.ExpiresIn; ({ t with ExpiresIn := x }, err)
  | _ => let (x, err) := storeString (lit "refresh_token") v t.RefreshToken; ({ t with RefreshToken := x }, err)

/-- Store a value into field `i` of a `Profile`. -/
def Profile.set (t : Profile) (i : Nat) (v : JVal) : Profile × Option GoError :=
  match i with
  | 0 | 1 => let (e, err) := storeError t.Error i v; ({ t with Error := e }, err)
  | 2 => let (x, err) := storeInt intSize (lit "code") v t.Code; ({ t with Code := x }, err)
  | 3 => let (x, err) := storeInt 64 (lit "id") v t.ID; ({ t with ID := x }, err)
  | 4 => let (x, err) := storeString (lit "nickname") v t.Nickname; ({ t with Nickname := x }, err)
  | 5 => let (x, err) := storeString (lit "email") v t.Email; ({ t with Email := x }, err)
  | _ => let (x, err) := storeString (lit "phone") v t.Phone; ({ t with Phone := x }, err)

/-- Store a value into field `i` of a `Wallet`. -/
def Wallet.set (t : Wallet) (i : Nat) (v : JVal) : Wallet × Option GoError :=
  match i with
  | 0 | 1 => let (e, err) := storeError t.Error i v; ({ t with Error := e }, err)
  | 2 => let (x, err) := storeInt intSize (lit "code") v t.Code; ({ t with Code := x }, err)
  | 3 => let (x, err) := storeString (lit "address") v t.Address; ({ t with Address := x }, err)
  | _ => let (x, err) := storeFloat (lit "balance") v t.Balance; ({ t with Balance := x }, err)

/-- The Go kinds of the fields of the three structs. -/
inductive FieldKind where
  | string | int | float
  deriving DecidableEq, Repr

/-- A struct type the decoder can fill: its zero value, the JSON names and Go kinds of its
fields in index order, the field store, and the embedded `*Error`. -/
structure Shape (T : Type) where
  zero : T
  fields : List GoString
  kinds : List FieldKind
  set : T → Nat → JVal → T × Option GoError
  error : T → Option ApiError

/-- The shape of `Token`. -/
def Token.shape : Shape Token :=
  ⟨Token.zero, Token.fields, [.string, .string, .string, .string, .int, .string], Token.set,
    Token.Error⟩

/-- The shape of `Profile`. -/
def Profile.shape : Shape Profile :=
  ⟨Profile.zero, Profile.fields, [.string, .string, .int, .int, .string, .string, .string],
    Profile.set, Profile.Error⟩

/-- The shape of `Wallet`. -/
def Wallet.shape : Shape Wallet :=
  ⟨Wallet.zero, Wallet.fields, [.string, .string, .int, .string, .float], Wallet.set,
    Wallet.Error⟩

/-- The method `(*decodeState).object` into a struct: each member in turn goes to its field, a
key without a field is skipped, and the first type error is kept
(`saveError`) while decoding goes on. -/
def decodeMembers {T : Type} (sh : Shape T) : List (GoString × JVal) → T → Option GoError →
    T × Option GoError
  | [], t, saved => (t, saved)
  | (key, v) :: rest, t, saved =>
    match findField sh.fields key with
    | none => decodeMembers sh rest t saved
    | some i =>
      let (t1, err) := sh.set t i v
      decodeMembers sh rest t1 (saved.orElse (fun _ => err))

/-- The method `(*decodeState).unmarshal` into a fresh struct, on bytes the scanner accepted:
an object fills the fields, `null` leaves the struct as it is, any other value is
a type error. -/
def unmarshalValue {T : Type} (sh : Shape T) (data : GoString) : T × Option GoError :=
  match skipSpace data with
  | [] => (sh.zero, none)
  | c :: rest =>
    if c == 123 then decodeMembers sh (objectMembers (rest.length + 1) rest) sh.zero none
    else if c == 91 then (sh.zero, some (.jsonType (lit "array") []))
    else if c == 110 then (sh.zero, none)
    else if c == 34 then (sh.zero, some (.jsonType (lit "string") []))
    else if c == 116 || c == 102 then (sh.zero, some (.jsonType (lit "bool") []))
    else (sh.zero, some (.jsonType (lit "number") []))

/-- The function `json.Unmarshal(data, &v)` for a fresh `v`: the value of `v` afterwards and the
error returned. -/
def Unmarshal {T : Type} (sh : Shape T) (data : GoString) : T × Option GoError :=
  match checkValid data with
  | some err => (sh.zero, some err)
  | none => unmarshalValue sh data

/-- The call `json.NewDecoder(body).Decode(&v)` for a fresh `v`: the first JSON value of the
stream is decoded; what follows it is not read. -/
def Decode {T : Type} (sh : Shape T) (body : BodyStream) : T × Option GoError :=
  match readValue body with
  | .error err => (sh.zero, some err)
  | .ok data => unmarshalValue sh data

/-! ## `net/url`: form values and URL parsing -/

/-- The type `url.Values`: keys with their values, one entry per key. -/
abbrev Values := List (GoString × List GoString)

/-- The method `Values.Set`: the key gets exactly this value. -/
def Values.Set (v : Values) (key value : GoString) : Values :=
  match v with
  | [] => [(key, [value])]
  | (k, vs) :: rest => if k == key then (k, [value]) :: rest else (k, vs) :: Values.Set rest key value

/-- Byte-wise `<` of Go strings. -/
def strLt : GoString → GoString → Bool
  | [], [] => false
  | [], _ :: _ => true
  | _ :: _, [] => false
  | a :: as, b :: bs => a < b || (a == b && strLt as bs)

/-- Insert an entry into a list sorted by key. -/
def insertSorted (e : GoString × List GoString) : Values → Values
  | [] => [e]
  | x :: xs => if strLt x.1 e.1 then x :: insertSorted e xs else e :: x :: xs

/-- The entries in the order of `slices.Sort(keys)`. -/
def sortByKey : Values → Values
  | [] => []
  | e :: es => insertSorted e (sortByKey es)

/-- The function `shouldEscape(c, encodeQueryComponent)`: everything but letters, digits and
`-`, `_`, `.`, `~`. -/
def shouldEscape (c : Nat) : Bool :=
  !(isLetter c || isDigit c || c == 45 || c == 95 || c == 46 || c == 126)

/-- The table `upperhex`: `"0123456789ABCDEF"[n]`. -/
def upperhex (n : Nat) : Nat := if n < 10 then 48 + n else 55 + n

/-- The function `url.QueryEscape`. -/
def QueryEscape : GoString → GoString
  | [] => []
  | c :: cs =>
    if c == 32 then 43 :: QueryEscape cs
    else if shouldEscape c then 37 :: upperhex (c / 16) :: upperhex (c % 16) :: QueryEscape cs
    else c :: QueryEscape cs

/-- The inner loop of `Values.Encode` for one key: `key=value` for each value, with `&`
before it unless the buffer is empty. -/
def encodeValues (keyEscaped : GoString) : List GoString → GoString → GoString
  | [], buf => buf
  | v :: vs, buf =>
    let buf := if buf.length > 0 then buf ++ [38] else buf
    encodeValues keyEscaped vs (buf ++ keyEscaped ++ [61] ++ QueryEscape v)

/-- The outer loop of `Values.Encode` over the sorted keys. -/
def encodeEntries : Values → GoString → GoString
  | [], buf => buf
  | (k, vs) :: rest, buf => encodeEntries rest (encodeValues (QueryEscape k) vs buf)

/-- The method `Values.Encode`: `key=value` pairs joined by `&`, sorted by key. -/
def Values.Encode (v : Values) : GoString := encodeEntries (sortByKey v) []

/-- The function `strings.Cut(s, sep)` for a one-byte separator: before, after, found. -/
def cut (sep : Nat) : GoString → GoString × GoString × Bool
  | [] => ([], [], false)
  | c :: cs =>
    if c == sep then ([], cs, true)
    else let (a, b, f) := cut sep cs; (c :: a, b, f)

/-- The function `getScheme` of `net/url`, as far as its error goes: `true` when it returns
"missing protocol scheme", which is when a colon comes first. -/
def getSchemeFails : GoString → Bool
  | 58 :: _ => true
  | _ => false

/-- The function `stringContainsCTLByte`. -/
def stringContainsCTLByte (s : GoString) : Bool := s.any (fun b => b < 32 || b == 127)

/-! ## `encoding/base64` -/

/-- The alphabet of `base64.StdEncoding`. -/
def b64char (n : Nat) : Nat :=
  if n < 26 then 65 + n
  else if n < 52 then 97 + (n - 26)
  else if n < 62 then 48 + (n - 52)
  else if n == 62 then 43 else 47

/-- The method `base64.StdEncoding.EncodeToString`. -/
def base64 : GoString → GoString
  | a :: b :: c :: rest =>
    b64char (a / 4) :: b64char ((a % 4) * 16 + b / 16) :: b64char ((b % 16) * 4 + c / 64) ::
      b64char (c % 64) :: base64 rest
  | [a, b] => [b64char (a / 4), b64char ((a % 4) * 16 + b / 16), b64char ((b % 16) * 4), 61]
  | [a] => [b64char (a / 4), b64char ((a % 4) * 16), 61, 61]
  | [] => []

/-! ## `net/http`: requests, the client, the network -/

/-- The fields of `http.Request` that `GetToken` sets. -/
structure Request where
  Method : GoString
  URL : GoString
  Header : Values
  Body : GoString
  deriving DecidableEq, Repr

/-- The field of `http.Client` that `GetToken` sets; the timeout is in nanoseconds. -/
structure Client where
  Timeout : Nat
  deriving DecidableEq, Repr

/-- The constant `time.Second`, in nanoseconds. -/
def Second : Nat := 1000000000

/-- What the code does not decide: the rest of `url.Parse` once the checks modelled here
have passed, and the answers of the network. -/
structure Env where
  /-- The error of the later stages of `url.Parse` (authority, host, path), if any. -/
  parseRest : GoString → Option GoError
  /-- The function `http.Get`. -/
  get : GoString → Except GoError Response
  /-- The method `(*http.Client).Do`. -/
  doRequest : Client → Request → Except GoError Response

/-- The function `url.Parse`, as far as its error goes: the text before `#` must hold no control
byte and must not start with a colon; the later stages are the environment's. -/
def urlParseError (env : Env) (rawURL : GoString) : Option GoError :=
  let u := (cut 35 rawURL).1
  if stringContainsCTLByte u then some (.url (lit "net/url: invalid control character in URL"))
  else if getSchemeFails u then some (.url (lit "missing protocol scheme"))
  else env.parseRest rawURL

/-- The function `http.NewRequest` for a valid method: the request with an empty header, or `nil`
and the error of `url.Parse`. -/
def NewRequest (env : Env) (method url body : GoString) : Option Request × Option GoError :=
  match urlParseError env url with
  | some err => (none, some err)
  | none => (some ⟨method, url, [], body⟩, none)

/-- The method `Header.Set` for a key already in canonical form. -/
def Request.HeaderSet (r : Request) (key value : GoString) : Request :=
  { r with Header := Values.Set r.Header key value }

/-- The method `(*Request).SetBasicAuth`. -/
def Request.SetBasicAuth (r : Request) (username password : GoString) : Request :=
  r.HeaderSet (lit "Authorization") (lit "Basic " ++ base64 (username ++ lit ":" ++ password))

/-- The line `httpGet` writes to the debug log: `log.Debugf("body: %s", body)`. -/
def httpGetLog (res : Response) : GoString := sprintf1 (lit "body: ") [] (readAll res.Body).1

/-- The function `httpGet`.  The error of `ioutil.ReadAll` is assigned and never read. -/
def httpGet (env : Env) (url : GoString) : Option GoString × Option GoError :=
  match env.get url with
  | .error err => (none, some err)
  | .ok res =>
    let (body, _) := readAll res.Body
    if res.StatusCode ≠ StatusOK then
      (none, some (.errorf (res.Status ++ lit ": " ++ body)))
    else (some body, none)

/-! ## The three operations (oauth2.go 93-160) -/

/-- How a call ends: it returns its pair, or the goroutine panics on a nil pointer. -/
inductive Outcome (T : Type) where
  | returned (value : Option T) (err : Option GoError)
  | panic
  deriving DecidableEq, Repr

/-- The form `GetToken` builds (`search`). -/
def tokenForm (code : GoString) (conf : Config) : Values :=
  ((Values.Set [] (lit "grant_type") (lit "authorization_code")).Set (lit "code") code).Set
    (lit "redirect_uri") conf.RedirectURI

/-- The function `GetToken`.  The error of `http.NewRequest` is assigned and overwritten
unread; `hreq.Header.Set` on a `nil` request panics. -/
def GetToken (env : Env) (code : GoString) (conf : Config) : Outcome Token :=
  let search := tokenForm code conf
  let client : Client := ⟨3 * Second⟩
  match NewRequest env (lit "POST") conf.GetTokenURL search.Encode with
  | (none, _) => .panic
  | (some hreq, _) =>
    let hreq := hreq.HeaderSet (lit "Content-Type") (lit "application/x-www-form-urlencoded")
    let hreq := hreq.SetBasicAuth conf.ClientID conf.ClientSecret
    match env.doRequest client hreq with
    | .error err => .returned none (some err)
    | .ok resp =>
      match Decode Token.shape resp.Body with
      | (_, some err) => .returned none (some err)
      | (token, none) =>
        match token.Error with
        | some e => .returned none (some (.errorf (sprintf1 (lit "Get token failed: ") [] e.Message)))
        | none => .returned (some token) none

/-- The function `GetProfile`. -/
def GetProfile (env : Env) (conf : Config) (accessToken : GoString) :
    Option Profile × Option GoError :=
  match httpGet env (conf.GetProfileURL accessToken) with
  | (_, some err) => (none, some err)
  | (body, none) =>
    match Unmarshal Profile.shape (body.getD []) with
    | (_, some err) => (none, some err)
    | (profile, none) =>
      match profile.Error with
      | some e => (none, some (.errorf (sprintf1 (lit "Get profile failed: ") [] e.Message)))
      | none => (some profile, none)

/-- The function `GetWallet`. -/
def GetWallet (env : Env) (conf : Config) (accessToken : GoString) :
    Option Wallet × Option GoError :=
  match httpGet env (conf.GetWalletURL accessToken) with
  | (_, some err) => (none, some err)
  | (body, none) =>
    match Unmarshal Wallet.shape (body.getD []) with
    | (_, some err) => (none, some err)
    | (wallet, none) =>
      match wallet.Error with
      | some e => (none, some (.errorf (sprintf1 (lit "Get wallet failed: ") [] e.Message)))
      | none => (some wallet, none)

/-! ## Notions used by the theorems -/

/-- A JSON value of the wrong type for a field of kind `k`: anything but `null` and the
one JSON type the kind accepts (a string for `string`, a number for `int` and
`float64`). -/
def wrongKind (k : FieldKind) (v : JVal) : Bool :=
  match k, v with
  | _, .null => false
  | .string, .string _ => false
  | .int, .number _ => false
  | .float, .number _ => false
  | _, _ => true

/-- A key that `encoding/json` matches with `error` or `error_description`: the name up to
the case of its letters. -/
def isErrorKey (key : GoString) : Bool :=
  equalFold (lit "error") key || equalFold (lit "error_description") key

/-- A key that decodes into one of the two fields of the embedded `*Error`. -/
def intoEnvelope {T : Type} (sh : Shape T) (key : GoString) : Bool :=
  match findField sh.fields key with
  | some i => i < 2
  | none => false

/-- How the field store of a shape treats the embedded `*Error` and JSON values of the
wrong type. -/
structure Shape.Lawful {T : Type} (sh : Shape T) : Prop where
  zero_error : sh.error sh.zero = none
  field_error : findField sh.fields (lit "error") = some 0
  field_description : findField sh.fields (lit "error_description") = some 1
  envelope_key : ∀ k, intoEnvelope sh k = isErrorKey k
  set_envelope : ∀ t i v, i < 2 → sh.error (sh.set t i v).1 = (storeError (sh.error t) i v).1
  set_other : ∀ t i v, ¬ i < 2 → sh.error (sh.set t i v).1 = sh.error t
  set_wrong : ∀ t i v k, sh.kinds.get? i = some k → wrongKind k v = true → (sh.set t i v).2 ≠ none

/-- Decimal digits of `n`, most significant first; `fuel` bounds the number of digits. -/
def decimalAux : Nat → Nat → GoString
  | 0, _ => []
  | fuel + 1, n => if n < 10 then [48 + n] else decimalAux fuel (n / 10) ++ [48 + n % 10]

/-- The decimal text of a natural number. -/
def decimal (n : Nat) : GoString := decimalAux (n + 1) n

/-- The JSON text of an integer: an optional `-` and the decimal digits. -/
def intLiteral (n : Int) : GoString :=
  if n < 0 then 45 :: decimal (-n).toNat else decimal n.toNat

/-- The four members of a successful token response. -/
def tokenMembers (a tt r : GoString) (n : Int) : List (GoString × JVal) :=
  [(lit "access_token", .string a), (lit "token_type", .string tt),
   (lit "expires_in", .number (intLiteral n)), (lit "refresh_token", .string r)]

/-- The members of an object carry the platform error `e` with description `d`: `error`
is present with the string `e`, `error_description` is present with the string `d` or
absent with `d` empty, and no other key matches one of the two names. -/
def CarriesError (kvs : List (GoString × JVal)) (e d : GoString) : Prop :=
  (lit "error", JVal.string e) ∈ kvs ∧
  ((lit "error_description", JVal.string d) ∈ kvs ∨ d = []) ∧
  ∀ kv ∈ kvs, isErrorKey kv.1 = false ∨ kv = (lit "error", JVal.string e) ∨
    kv = (lit "error_description", JVal.string d)

/-! ## Networks used to state and instantiate the theorems -/

/-- A network that answers every request with `r` and in which the later stages of
`url.Parse` accept every URL. -/
def constEnv (r : Except GoError Response) : Env := ⟨fun _ => none, fun _ => r, fun _ _ => r⟩

/-- The network `env` with the status code and status line of every response to
`client.Do` replaced. -/
def Env.withStatus (env : Env) (code : Int) (status : GoString) : Env :=
  { env with
    doRequest := fun c r =>
      match env.doRequest c r with
      | .ok res => .ok { res with StatusCode := code, Status := status }
      | .error err => .error err }

/-- The client `GetToken` makes. -/
def tokenClient : Client := ⟨3 * Second⟩

/-- The request `GetToken` sends once `http.NewRequest` has succeeded. -/
def tokenRequest (code : GoString) (conf : Config) : Request :=
  ((Request.mk (lit "POST") conf.GetTokenURL [] (tokenForm code conf).Encode).HeaderSet
      (lit "Content-Type") (lit "application/x-www-form-urlencoded")).SetBasicAuth
    conf.ClientID conf.ClientSecret

/-- The members of the object that `data` holds, `[]` when its value is not an object. -/
def membersOf (data : GoString) : List (GoString × JVal) :=
  match skipSpace data with
  | 123 :: rest => objectMembers (rest.length + 1) rest
  | _ => []

/-- The spec's example of a failing lookup: status 500 with body `server down`. -/
def serverDown : Response := ⟨500, lit "500 Internal Server Error", ⟨lit "server down", none⟩⟩

/-! ## Example values -/

/-- A configuration for the examples. -/
def exConf : Config := ⟨lit "https://h", lit "id", lit "secret", lit "https://app/cb"⟩

/-- A complete response with status 200 and the given body. -/
def ok200 (body : GoString) : Response := ⟨200, lit "200 OK", ⟨body, none⟩⟩

/-- The body `{"error":"invalid_grant","error_description":"bad code"}`. -/
def errorBody : GoString :=
  lit "\x7b\"error\":\"invalid_grant\",\"error_description\":\"bad code\"\x7d"

/-- The body `{"error":"","code":0}`. -/
def emptyErrorBody : GoString := lit "\x7b\"error\":\"\",\"code\":0\x7d"

/-- A body that the three structs decode without an envelope. -/
def plainBody : GoString :=
  lit "\x7b\"access_token\":\"tok1\",\"code\":0,\"address\":\"Q\",\"balance\":1.5,\"id\":7\x7d"

/-- The spec's example of a token response. -/
def tokenBody : GoString :=
  lit "\x7b\"access_token\":\"tok1\",\"token_type\":\"bearer\",\"expires_in\":3600,\"refresh_token\":\"r1\"\x7d"

theorem decodeRune_size (c : Nat) (rest : GoString) : 1 ≤ (decodeRune (c :: rest)).2 := by
  simp only [decodeRune]
  repeat' split
  all_goals simp

theorem unquoteLoop_fuel (f1 f2 : Nat) (s : GoString) (h1 : s.length < f1) (h2 : s.length < f2) :
    unquoteLoop f1 s = unquoteLoop f2 s := by
  induction f1 generalizing f2 s with
  | zero => omega
  | succ n ih =>
    cases f2 with
    | zero => omega
    | succ m =>
      cases s with
      | nil => simp [unquoteLoop]
      | cons c rest =>
        have hr : ∀ t : GoString, t.length ≤ rest.length → unquoteLoop n t = unquoteLoop m t := by
          intro t ht
          simp only [List.length_cons] at h1 h2
          exact ih m t (by omega) (by omega)
        have hd : ∀ k, 1 ≤ k → ((c :: rest).drop k).length ≤ rest.length := by
          intro k hk
          simp only [List.length_drop, List.length_cons]; omega
        have hsz := decodeRune_size c rest
        unfold unquoteLoop
        simp only []
        by_cases c1 : (c == 92) = true
        · simp only [c1, if_true]
          cases rest with
          | nil => rfl
          | cons e rest1 =>
            have hr1 : unquoteLoop n rest1 = unquoteLoop m rest1 := hr rest1 (by simp)
            simp only [hr1, hr _ (hd 6 (by omega)), hr _ (by
              simp only [List.length_drop, List.length_cons]; omega :
                (((c :: e :: rest1).drop 6).drop 6).length ≤ (e :: rest1).length)]
        · simp only [c1, Bool.false_eq_true, if_false, hr rest (le_refl _), hr _ (hd _ hsz)]

theorem skipSpace_length (d : GoString) : (skipSpace d).length ≤ d.length := by
  induction d with
  | nil => simp [skipSpace]
  | cons c cs ih =>
    simp only [skipSpace]
    split
    · simp only [List.length_cons]; omega
    · simp

theorem scanString_length (d : GoString) : (scanString d).2.length ≤ d.length := by
  induction d using scanString.induct with
  | case1 => simp [scanString]
  | case2 c rest a b h ih =>
    rw [scanString, h]
    rw [h] at ih
    simp only [List.length_cons] at ih ⊢
    omega
  | case3 c rest hne hc =>
    rw [scanString]
    · simp [hc]
    · exact hne
  | case4 c rest hne hc a b h ih =>
    rw [scanString]
    · rw [h] at ih
      simp only [hc, h, List.length_cons] at ih ⊢
      simp
      omega
    · exact hne

theorem skipNested_length (depth : Nat) (a b : Bool) (d : GoString) :
    (skipNested depth a b d).length ≤ d.length := by
  induction d generalizing depth a b with
  | nil => simp [skipNested]
  | cons c cs ih =>
    cases a with
    | true =>
      cases b with
      | true =>
        simp only [skipNested, List.length_cons]
        have := ih depth true false
        omega
      | false =>
        simp only [skipNested, List.length_cons]
        split_ifs
        · have := ih depth true true; omega
        · have := ih depth false false; omega
        · have := ih depth true false; omega
    | false =>
      simp only [skipNested, List.length_cons]
      split_ifs
      · have := ih depth true false; omega
      · have := ih (depth + 1) false false; omega
      · cases depth with
        | zero => simp
        | succ n => simp only []; have := ih n false false; omega
      · have := ih depth false false; omega

theorem span_snd_length (p : Nat → Bool) (d : GoString) : (d.span p).2.length ≤ d.length := by
  have h := List.span_eq_take_drop p d
  rw [h]
  simp only [List.dropWhile]
  exact (List.dropWhile_suffix p).length_le

theorem readJVal_length (d : GoString) : (readJVal d).2.length ≤ d.length := by
  unfold readJVal
  cases d with
  | nil => simp
  | cons c rest =>
    simp only [List.length_cons]
    split_ifs
    · have := skipNested_length 0 false false rest; simp only []; omega
    · have := skipNested_length 0 false false rest; simp only []; omega
    · have := scanString_length rest
      rcases hs : scanString rest with ⟨raw, after⟩
      rw [hs] at this
      simp only [] at this ⊢
      omega
    · simp only [List.length_drop]; omega
    · simp only [List.length_drop]; omega
    · simp only [List.length_drop]; omega
    · have := span_snd_length isNumberByte (c :: rest)
      simp only [scanNumber, List.length_cons] at this ⊢
      exact this

theorem objectMembers_fuel (f1 f2 : Nat) (d : GoString) (h1 : d.length < f1)
    (h2 : d.length < f2) : objectMembers f1 d = objectMembers f2 d := by
  induction f1 generalizing f2 d with
  | zero => omega
  | succ n ih =>
    cases f2 with
    | zero => omega
    | succ m =>
      unfold objectMembers
      have k1 := skipSpace_length d
      split
      · rename_i rest hs
        rw [hs] at k1
        have k2 := scanString_length rest
        rcases hss : scanString rest with ⟨raw, after⟩
        rw [hss] at k2
        have k3 := skipSpace_length after
        simp only [List.length_cons] at k1 k2 ⊢
        split
        · rename_i key afterColon hu hc
          rw [hc] at k3
          have k4 := skipSpace_length afterColon
          have k5 := readJVal_length (skipSpace afterColon)
          rcases hv : readJVal (skipSpace afterColon) with ⟨v, afterValue⟩
          rw [hv] at k5
          have k6 := skipSpace_length afterValue
          simp only [List.length_cons] at k3 k5 ⊢
          split
          · rename_i more hm
            rw [hm] at k6
            simp only [List.length_cons] at k6
            rw [ih m more (by omega) (by omega)]
          · rfl
        · rfl
      · rfl

/-- The fuel that `membersOf` and `unmarshalValue` give to `objectMembers` is enough: more
fuel reads the same members. -/
theorem objectMembers_enough (fuel : Nat) (d : GoString) (h : d.length < fuel) :
    objectMembers fuel d = objectMembers (d.length + 1) d :=
  objectMembers_fuel fuel (d.length + 1) d h (Nat.lt_succ_self _)

/-- The fuel that `roundFloat64` gives to `log2Floor` is enough. -/
theorem log2Floor_eq (f n : Nat) (h : n ≤ f) : log2Floor f n = Nat.log2 n := by
  induction f generalizing n with
  | zero =>
    have : n = 0 := by omega
    subst this
    rw [Nat.log2]; simp [log2Floor]
  | succ k ih =>
    rw [Nat.log2]
    simp only [log2Floor]
    by_cases h2 : n < 2
    · simp [h2, Nat.not_le.2 h2]
    · have : n ≥ 2 := by omega
      simp only [h2, if_false, this, if_true]
      rw [ih (n / 2) (by omega)]
      omega

/-- The fuel that `unquote` gives to `unquoteLoop` is enough: more fuel gives the same
string. -/
theorem unquoteLoop_enough (fuel : Nat) (s : GoString) (h : s.length < fuel) :
    unquoteLoop fuel s = unquote s :=
  unquoteLoop_fuel fuel (s.length + 1) s h (Nat.lt_succ_self _)


/-! ### The struct decoder, the form encoding, integer literals -/

theorem storeString_wrong (f : GoString) (v : JVal) (cur : GoString)
    (h : wrongKind .string v = true) : (storeString f v cur).2 ≠ none := by
  cases v <;> simp_all [wrongKind, storeString]

theorem storeInt_wrong (b : Nat) (f : GoString) (v : JVal) (cur : Int)
    (h : wrongKind .int v = true) : (storeInt b f v cur).2 ≠ none := by
  cases v <;> simp_all [wrongKind, storeInt]

theorem storeFloat_wrong (f : GoString) (v : JVal) (cur : Float64)
    (h : wrongKind .float v = true) : (storeFloat f v cur).2 ≠ none := by
  cases v <;> simp_all [wrongKind, storeFloat]

theorem storeError_some (e : Option ApiError) (i : Nat) (v : JVal) :
    (storeError e i v).1 ≠ none := by
  unfold storeError
  split <;> simp

theorem storeError_wrong (e : Option ApiError) (i : Nat) (v : JVal)
    (h : wrongKind .string v = true) : (storeError e i v).2 ≠ none := by
  unfold storeError
  split
  · exact storeString_wrong _ v _ h
  · exact storeString_wrong _ v _ h

theorem findIndex_cons (p : GoString → Bool) (n : GoString) (ns : List GoString) :
    findIndex p (n :: ns) = if p n then some 0 else (findIndex p ns).map (· + 1) := rfl

theorem token_envelope_key (k : GoString) : intoEnvelope Token.shape k = isErrorKey k := by
  unfold intoEnvelope isErrorKey findField
  simp only [Token.shape, Token.fields, findIndex_cons, findIndex]
  by_cases e0 : lit "error" = k
  · subst e0; decide
  by_cases e1 : lit "error_description" = k
  · subst e1; decide
  by_cases e2 : lit "access_token" = k
  · subst e2; decide
  by_cases e3 : lit "token_type" = k
  · subst e3; decide
  by_cases e4 : lit "expires_in" = k
  · subst e4; decide
  by_cases e5 : lit "refresh_token" = k
  · subst e5; decide
  simp only [beq_iff_eq, e0, e1, e2, e3, e4, e5, if_false, Option.map_none']
  by_cases f0 : equalFold (lit "error") k = true
  · simp [f0]
  by_cases f1 : equalFold (lit "error_description") k = true
  · simp [f0, f1]
  simp only [f0, f1, Bool.false_eq_true, if_false, Bool.or_false]
  split <;> rename_i h <;> simp at h ⊢
  split_ifs at h <;> simp at h <;> omega

theorem token_lawful : Token.shape.Lawful := by
  refine ⟨rfl, by decide, by decide, token_envelope_key, ?_, ?_, ?_⟩
  · intro t i v hi
    rcases i with _ | _ | i
    · simp only [Token.shape, Token.set]
    · simp only [Token.shape, Token.set]
    · omega
  · intro t i v hi
    rcases i with _ | _ | _ | _ | _ | i <;> first | omega | rfl
  · intro t i v k hk hw
    rcases i with _ | _ | _ | _ | _ | _ | i <;>
      simp [Token.shape] at hk <;> subst hk
    · have h := storeError_wrong t.Error 0 v hw
      simp only [Token.shape, Token.set]; revert h; cases storeError t.Error 0 v; simp
    · have h := storeError_wrong t.Error 1 v hw
      simp only [Token.shape, Token.set]; revert h; cases storeError t.Error 1 v; simp
    · have h := storeString_wrong (lit "access_token") v t.AccessToken hw
      simp only [Token.shape, Token.set]; revert h; cases storeString (lit "access_token") v t.AccessToken; simp
    · have h := storeString_wrong (lit "token_type") v t.TokenType hw
      simp only [Token.shape, Token.set]; revert h; cases storeString (lit "token_type") v t.TokenType; simp
    · have h := storeInt_wrong intSize (lit "expires_in") v t.ExpiresIn hw
      simp only [Token.shape, Token.set]; revert h; cases storeInt intSize (lit "expires_in") v t.ExpiresIn; simp
    · have h := storeString_wrong (lit "refresh_token") v t.RefreshToken hw
      simp only [Token.shape, Token.set]; revert h; cases storeString (lit "refresh_token") v t.RefreshToken; simp

theorem profile_envelope_key (k : GoString) : intoEnvelope Profile.shape k = isErrorKey k := by
  unfold intoEnvelope isErrorKey findField
  simp only [Profile.shape, Profile.fields, findIndex_cons, findIndex]
  by_cases e0 : lit "error" = k
  · subst e0; decide
  by_cases e1 : lit "error_description" = k
  · subst e1; decide
  by_cases e2 : lit "code" = k
  · subst e2; decide
  by_cases e3 : lit "id" = k
  · subst e3; decide
  by_cases e4 : lit "nickname" = k
  · subst e4; decide
  by_cases e5 : lit "email" = k
  · subst e5; decide
  by_cases e6 : lit "phone" = k
  · subst e6; decide
  simp only [beq_iff_eq, e0, e1, e2, e3, e4, e5, e6, if_false, Option.map_none']
  by_cases f0 : equalFold (lit "error") k = true
  · simp [f0]
  by_cases f1 : equalFold (lit "error_description") k = true
  · simp [f0, f1]
  simp only [f0, f1, Bool.false_eq_true, if_false, Bool.or_false]
  split <;> rename_i h <;> simp at h ⊢
  split_ifs at h <;> simp at h <;> omega

theorem profile_lawful : Profile.shape.Lawful := by
  refine ⟨rfl, by decide, by decide, profile_envelope_key, ?_, ?_, ?_⟩
  · intro t i v hi
    rcases i with _ | _ | i
    · simp only [Profile.shape, Profile.set]
    · simp only [Profile.shape, Profile.set]
    · omega
  · intro t i v hi
    rcases i with _ | _ | _ | _ | _ | _ | i <;> first | omega | rfl
  · intro t i v k hk hw
    rcases i with _ | _ | _ | _ | _ | _ | _ | i <;>
      simp [Profile.shape] at hk <;> subst hk
    · have h := storeError_wrong t.Error 0 v hw
      simp only [Profile.shape, Profile.set]; revert h; cases storeError t.Error 0 v; simp
    · have h := storeError_wrong t.Error 1 v hw
      simp only [Profile.shape, Profile.set]; revert h; cases storeError t.Error 1 v; simp
    · have h := storeInt_wrong intSize (lit "code") v t.Code hw
      simp only [Profile.shape, Profile.set]; revert h; cases storeInt intSize (lit "code") v t.Code; simp
    · have h := storeInt_wrong 64 (lit "id") v t.ID hw
      simp only [Profile.shape, Profile.set]; revert h; cases storeInt 64 (lit "id") v t.ID; simp
    · have h := storeString_wrong (lit "nickname") v t.Nickname hw
      simp only [Profile.shape, Profile.set]; revert h; cases storeString (lit "nickname") v t.Nickname; simp
    · have h := storeString_wrong (lit "email") v t.Email hw
      simp only [Profile.shape, Profile.set]; revert h; cases storeString (lit "email") v t.Email; simp
    · have h := storeString_wrong (lit "phone") v t.Phone hw
      simp only [Profile.shape, Profile.set]; revert h; cases storeString (lit "phone") v t.Phone; simp

theorem wallet_envelope_key (k : GoString) : intoEnvelope Wallet.shape k = isErrorKey k := by
  unfold intoEnvelope isErrorKey findField
  simp only [Wallet.shape, Wallet.fields, findIndex_cons, findIndex]
  by_cases e0 : lit "error" = k
  · subst e0; decide
  by_cases e1 : lit "error_description" = k
  · subst e1; decide
  by_cases e2 : lit "code" = k
  · subst e2; decide
  by_cases e3 : lit "address" = k
  · subst e3; decide
  by_cases e4 : lit "balance" = k
  · subst e4; decide
  simp only [beq_iff_eq, e0, e1, e2, e3, e4, if_false, Option.map_none']
  by_cases f0 : equalFold (lit "error") k = true
  · simp [f0]
  by_cases f1 : equalFold (lit "error_description") k = true
  · simp [f0, f1]
  simp only [f0, f1, Bool.false_eq_true, if_false, Bool.or_false]
  split <;> rename_i h <;> simp at h ⊢
  split_ifs at h <;> simp at h <;> omega

theorem wallet_lawful : Wallet.shape.Lawful := by
  refine ⟨rfl, by decide, by decide, wallet_envelope_key, ?_, ?_, ?_⟩
  · intro t i v hi
    rcases i with _ | _ | i
    · simp only [Wallet.shape, Wallet.set]
    · simp only [Wallet.shape, Wallet.set]
    · omega
  · intro t i v hi
    rcases i with _ | _ | _ | _ | i <;> first | omega | rfl
  · intro t i v k hk hw
    rcases i with _ | _ | _ | _ | _ | i <;>
      simp [Wallet.shape] at hk <;> subst hk
    · have h := storeError_wrong t.Error 0 v hw
      simp only [Wallet.shape, Wallet.set]; revert h; cases storeError t.Error 0 v; simp
    · have h := storeError_wrong t.Error 1 v hw
      simp only [Wallet.shape, Wallet.set]; revert h; cases storeError t.Error 1 v; simp
    · have h := storeInt_wrong intSize (lit "code") v t.Code hw
      simp only [Wallet.shape, Wallet.set]; revert h; cases storeInt intSize (lit "code") v t.Code; simp
    · have h := storeString_wrong (lit "address") v t.Address hw
      simp only [Wallet.shape, Wallet.set]; revert h; cases storeString (lit "address") v t.Address; simp
    · have h := storeFloat_wrong (lit "balance") v t.Balance hw
      simp only [Wallet.shape, Wallet.set]; revert h; cases storeFloat (lit "balance") v t.Balance; simp

theorem decodeMembers_error {T : Type} (sh : Shape T) (hl : sh.Lawful)
    (kvs : List (GoString × JVal)) (t : T) (saved : Option GoError) :
    sh.error (decodeMembers sh kvs t saved).1 = none ↔
      sh.error t = none ∧ ∀ kv ∈ kvs, intoEnvelope sh kv.1 = false := by
  induction kvs generalizing t saved with
  | nil => simp [decodeMembers]
  | cons kv rest ih =>
    obtain ⟨k, v⟩ := kv
    simp only [decodeMembers, List.mem_cons, forall_eq_or_imp]
    cases hf : findField sh.fields k with
    | none => simp [ih, intoEnvelope, hf]
    | some i =>
      simp only [ih, intoEnvelope, hf, decide_eq_false_iff_not]
      by_cases hi : i < 2
      · have := storeError_some (sh.error t) i v
        rw [← hl.set_envelope t i v hi] at this
        simp [this, hi]
      · rw [hl.set_other t i v hi]
        simp [hi]

theorem unmarshalValue_object {T : Type} (sh : Shape T) (data rest : GoString)
    (h : skipSpace data = 123 :: rest) :
    unmarshalValue sh data = decodeMembers sh (membersOf data) sh.zero none := by
  simp [unmarshalValue, membersOf, h]

theorem unmarshalValue_ok {T : Type} (sh : Shape T) (data : GoString)
    (h : (unmarshalValue sh data).2 = none) :
    unmarshalValue sh data = decodeMembers sh (membersOf data) sh.zero none := by
  cases hs : skipSpace data with
  | nil => simp [unmarshalValue, membersOf, hs, decodeMembers]
  | cons c rest =>
    by_cases hc : c = 123
    · subst hc; exact unmarshalValue_object sh data rest hs
    · simp only [unmarshalValue, hs, beq_iff_eq, hc, if_false] at h ⊢
      have : membersOf data = [] := by
        simp only [membersOf, hs]
        split
        · rename_i h'; simp at h'; exact absurd h'.1 hc
        · rfl
      rw [this]
      simp only [decodeMembers]
      split_ifs at h ⊢ <;> simp_all

theorem tokenForm_eq (code : GoString) (conf : Config) :
    tokenForm code conf =
      [(lit "grant_type", [lit "authorization_code"]), (lit "code", [code]),
       (lit "redirect_uri", [conf.RedirectURI])] := rfl

theorem digitsValue_append (acc : Nat) (ds : GoString) (d : Nat) (hd : d < 10) :
    digitsValue acc (ds ++ [48 + d]) = (digitsValue acc ds).map (fun v => v * 10 + d) := by
  induction ds generalizing acc with
  | nil =>
    have : isDigit (48 + d) = true := by simp [isDigit]; omega
    simp [digitsValue, this]
  | cons c cs ih =>
    simp only [List.cons_append, digitsValue]
    split
    · exact ih _
    · rfl

theorem digitsValue_decimalAux (fuel n : Nat) (h : n < fuel) :
    digitsValue 0 (decimalAux fuel n) = some n ∧ decimalAux fuel n ≠ [] ∧
      ∀ c ∈ (decimalAux fuel n).head?, isDigit c = true := by
  induction fuel generalizing n with
  | zero => omega
  | succ f ih =>
    simp only [decimalAux]
    split
    · rename_i h10
      have : isDigit (48 + n) = true := by simp [isDigit]; omega
      simp [digitsValue, this]
    · rename_i h10
      obtain ⟨i1, i2, i3⟩ := ih (n / 10) (by omega)
      refine ⟨?_, by simp, ?_⟩
      · rw [digitsValue_append _ _ _ (Nat.mod_lt _ (by decide)), i1]
        simp only [Option.map_some', Option.some.injEq]
        omega
      · cases hd : decimalAux f (n / 10) with
        | nil => exact absurd hd i2
        | cons c cs => rw [hd] at i3; simpa using i3

theorem parseInt_intLiteral (n : Int) (h1 : -(2 : Int) ^ 63 ≤ n) (h2 : n < (2 : Int) ^ 63) :
    parseInt intSize (intLiteral n) = some n := by
  unfold intLiteral
  split
  · rename_i hneg
    obtain ⟨d1, d2, -⟩ := digitsValue_decimalAux ((-n).toNat + 1) (-n).toNat (by omega)
    unfold parseInt decimal
    cases hd : decimalAux ((-n).toNat + 1) (-n).toNat with
    | nil => exact absurd hd d2
    | cons c cs =>
      rw [hd] at d1
      have hn : ((-n).toNat : Int) = -n := Int.toNat_of_nonneg (by omega)
      have hle : (-n).toNat ≤ 2 ^ (64 - 1) := by norm_num; omega
      simp only [splitSign, d1, intSize, hle, if_true, Option.some.injEq]
      omega
  · rename_i hneg
    obtain ⟨d1, d2, d3⟩ := digitsValue_decimalAux (n.toNat + 1) n.toNat (by omega)
    unfold parseInt decimal
    cases hd : decimalAux (n.toNat + 1) n.toNat with
    | nil => exact absurd hd d2
    | cons c cs =>
      rw [hd] at d1 d3
      have hc : isDigit c = true := by simpa using d3
      have hc45 : c ≠ 45 := by simp [isDigit] at hc; omega
      have hc43 : c ≠ 43 := by simp [isDigit] at hc; omega
      have hn : (n.toNat : Int) = n := Int.toNat_of_nonneg (by omega)
      have hlt : n.toNat < 2 ^ (64 - 1) := by norm_num; omega
      have hm : splitSign (c :: cs) = (false, c :: cs) := by
        unfold splitSign
        split
        · rename_i h; exact absurd (List.cons.inj h).1 hc45
        · rename_i h; exact absurd (List.cons.inj h).1 hc43
        · rfl
      simp only [hm, d1, intSize, hlt, if_true, hn]
      simp

theorem decodeMembers_cons_none {T : Type} (sh : Shape T) (k : GoString) (v : JVal)
    (rest : List (GoString × JVal)) (t : T) (saved : Option GoError)
    (h : findField sh.fields k = none) :
    decodeMembers sh ((k, v) :: rest) t saved = decodeMembers sh rest t saved := by
  simp only [decodeMembers, h]

theorem decodeMembers_cons_some {T : Type} (sh : Shape T) (k : GoString) (v : JVal)
    (rest : List (GoString × JVal)) (t : T) (saved : Option GoError) (i : Nat)
    (h : findField sh.fields k = some i) :
    decodeMembers sh ((k, v) :: rest) t saved =
      decodeMembers sh rest (sh.set t i v).1 (saved.orElse (fun _ => (sh.set t i v).2)) := by
  simp only [decodeMembers, h]

theorem decodeMembers_token (a tt r : GoString) (n : Int)
    (h1 : -(2 : Int) ^ 63 ≤ n) (h2 : n < (2 : Int) ^ 63)
    (kvs : List (GoString × JVal))
    (hk : ∀ kv ∈ kvs, findField Token.fields kv.1 = none ∨ kv ∈ tokenMembers a tt r n)
    (t : Token) (ht : t.Error = none) :
    (decodeMembers Token.shape kvs t none).2 = none ∧
    (decodeMembers Token.shape kvs t none).1.Error = none ∧
    ((decodeMembers Token.shape kvs t none).1.AccessToken = a ∨
      ((decodeMembers Token.shape kvs t none).1.AccessToken = t.AccessToken ∧
        (lit "access_token", JVal.string a) ∉ kvs)) ∧
    ((decodeMembers Token.shape kvs t none).1.TokenType = tt ∨
      ((decodeMembers Token.shape kvs t none).1.TokenType = t.TokenType ∧
        (lit "token_type", JVal.string tt) ∉ kvs)) ∧
    ((decodeMembers Token.shape kvs t none).1.ExpiresIn = n ∨
      ((decodeMembers Token.shape kvs t none).1.ExpiresIn = t.ExpiresIn ∧
        (lit "expires_in", JVal.number (intLiteral n)) ∉ kvs)) ∧
    ((decodeMembers Token.shape kvs t none).1.RefreshToken = r ∨
      ((decodeMembers Token.shape kvs t none).1.RefreshToken = t.RefreshToken ∧
        (lit "refresh_token", JVal.string r) ∉ kvs)) := by
  have f1 : findField Token.shape.fields (lit "access_token") = some 2 := by decide
  have f2 : findField Token.shape.fields (lit "token_type") = some 3 := by decide
  have f3 : findField Token.shape.fields (lit "expires_in") = some 4 := by decide
  have f4 : findField Token.shape.fields (lit "refresh_token") = some 5 := by decide
  have hp := parseInt_intLiteral n h1 h2
  induction kvs generalizing t with
  | nil => simp [decodeMembers, ht]
  | cons kv rest ih =>
    have hk' : ∀ kv ∈ rest, findField Token.fields kv.1 = none ∨ kv ∈ tokenMembers a tt r n :=
      fun x hx => hk x (List.mem_cons_of_mem _ hx)
    rcases hk kv (List.mem_cons_self _ _) with h | h
    · obtain ⟨k, v⟩ := kv
      have hne : ∀ k' v' i, findField Token.shape.fields k' = some i → (k', v') ≠ (k, v) := by
        intro k' v' i hf he
        rw [(Prod.mk.inj he).1] at hf
        have h' : findField Token.shape.fields k = none := h
        rw [h'] at hf
        simp at hf
      rw [decodeMembers_cons_none Token.shape k v rest t none h]
      simp only [List.mem_cons, not_or]
      obtain ⟨i1, i2, i3, i4, i5, i6⟩ := ih hk' t ht
      refine ⟨i1, i2, ?_, ?_, ?_, ?_⟩
      · exact i3.imp_right (fun x => ⟨x.1, hne _ _ _ f1, x.2⟩)
      · exact i4.imp_right (fun x => ⟨x.1, hne _ _ _ f2, x.2⟩)
      · exact i5.imp_right (fun x => ⟨x.1, hne _ _ _ f3, x.2⟩)
      · exact i6.imp_right (fun x => ⟨x.1, hne _ _ _ f4, x.2⟩)
    · simp only [tokenMembers, List.mem_cons, List.mem_singleton, List.not_mem_nil, or_false] at h
      rcases h with h | h | h | h <;> subst h
      · rw [decodeMembers_cons_some Token.shape _ _ rest t none 2 f1]
        have hs : Token.shape.set t 2 (.string a) = ({ t with AccessToken := a }, none) := rfl
        rw [hs]
        obtain ⟨i1, i2, i3, i4, i5, i6⟩ := ih hk' { t with AccessToken := a } ht
        simp only [List.mem_cons, not_or, Option.orElse]
        refine ⟨i1, i2, ?_, ?_, ?_, ?_⟩
        · exact Or.inl (i3.elim id (fun x => x.1))
        · exact i4.imp_right (fun x => ⟨x.1, by simp [lit], x.2⟩)
        · exact i5.imp_right (fun x => ⟨x.1, by simp [lit], x.2⟩)
        · exact i6.imp_right (fun x => ⟨x.1, by simp [lit], x.2⟩)
      · rw [decodeMembers_cons_some Token.shape _ _ rest t none 3 f2]
        have hs : Token.shape.set t 3 (.string tt) = ({ t with TokenType := tt }, none) := rfl
        rw [hs]
        obtain ⟨i1, i2, i3, i4, i5, i6⟩ := ih hk' { t with TokenType := tt } ht
        simp only [List.mem_cons, not_or, Option.orElse]
        refine ⟨i1, i2, ?_, ?_, ?_, ?_⟩
        · exact i3.imp_right (fun x => ⟨x.1, by simp [lit], x.2⟩)
        · exact Or.inl (i4.elim id (fun x => x.1))
        · exact i5.imp_right (fun x => ⟨x.1, by simp [lit], x.2⟩)
        · exact i6.imp_right (fun x => ⟨x.1, by simp [lit], x.2⟩)
      · rw [decodeMembers_cons_some Token.shape _ _ rest t none 4 f3]
        have hs : Token.shape.set t 4 (.number (intLiteral n)) = ({ t with ExpiresIn := n }, none) := by
          simp only [Token.shape, Token.set, storeInt, hp]
        rw [hs]
        obtain ⟨i1, i2, i3, i4, i5, i6⟩ := ih hk' { t with ExpiresIn := n } ht
        simp only [List.mem_cons, not_or, Option.orElse]
        refine ⟨i1, i2, ?_, ?_, ?_, ?_⟩
        · exact i3.imp_right (fun x => ⟨x.1, by simp [lit], x.2⟩)
        · exact i4.imp_right (fun x => ⟨x.1, by simp [lit], x.2⟩)
        · exact Or.inl (i5.elim id (fun x => x.1))
        · exact i6.imp_right (fun x => ⟨x.1, by simp [lit], x.2⟩)
      · rw [decodeMembers_cons_some Token.shape _ _ rest t none 5 f4]
        have hs : Token.shape.set t 5 (.string r) = ({ t with RefreshToken := r }, none) := rfl
        rw [hs]
        obtain ⟨i1, i2, i3, i4, i5, i6⟩ := ih hk' { t with RefreshToken := r } ht
        simp only [List.mem_cons, not_or, Option.orElse]
        refine ⟨i1, i2, ?_, ?_, ?_, ?_⟩
        · exact i3.imp_right (fun x => ⟨x.1, by simp [lit], x.2⟩)
        · exact i4.imp_right (fun x => ⟨x.1, by simp [lit], x.2⟩)
        · exact i5.imp_right (fun x => ⟨x.1, by simp [lit], x.2⟩)
        · exact Or.inl (i6.elim id (fun x => x.1))

/-! ### The operations -/

theorem GetToken_of_response (env : Env) (code : GoString) (conf : Config) (resp : Response)
    (hreq : urlParseError env conf.GetTokenURL = none)
    (hdo : env.doRequest tokenClient (tokenRequest code conf) = .ok resp) :
    GetToken env code conf =
      match Decode Token.shape resp.Body with
      | (_, some err) => .returned none (some err)
      | (token, none) =>
        match token.Error with
        | some e => .returned none (some (.errorf (lit "Get token failed: " ++ e.Message)))
        | none => .returned (some token) none := by
  simp only [GetToken, NewRequest, hreq]
  simp only [tokenClient, tokenRequest] at hdo
  simp only [hdo, sprintf1, List.append_nil]

theorem httpGet_of_response (env : Env) (url : GoString) (resp : Response)
    (hget : env.get url = .ok resp) :
    httpGet env url =
      if resp.StatusCode ≠ 200 then (none, some (.errorf (resp.Status ++ lit ": " ++ resp.Body.data)))
      else (some resp.Body.data, none) := by
  simp only [httpGet, hget, readAll, StatusOK]

/-- C6. For every `Config` and every access token, the three URL builders return the
platform host followed by the fixed path, with the token inserted as it is. -/
theorem url_builders_verbatim (c : Config) (t : GoString) :
    c.GetTokenURL = c.PlatformHost ++ lit "/oauth2/v1/token" ∧
    c.GetProfileURL t = c.PlatformHost ++ lit "/oauth2/v1/profile?access_token=" ++ t ∧
    c.GetWalletURL t =
      c.PlatformHost ++ lit "/oauth2/v1/wallet?access_token=" ++ t ++ lit "&type=qtum" := by
  simp [Config.GetTokenURL, Config.GetProfileURL, Config.GetWalletURL, sprintf1]

theorem GetProfile_of_response (env : Env) (conf : Config) (tok : GoString) (resp : Response)
    (hget : env.get (conf.GetProfileURL tok) = .ok resp) (hs : resp.StatusCode = 200) :
    GetProfile env conf tok =
      match Unmarshal Profile.shape resp.Body.data with
      | (_, some err) => (none, some err)
      | (profile, none) =>
        match profile.Error with
        | some e => (none, some (.errorf (lit "Get profile failed: " ++ e.Message)))
        | none => (some profile, none) := by
  simp only [GetProfile, httpGet_of_response env _ resp hget, hs, ne_eq, not_true_eq_false,
    if_false, Option.getD_some, sprintf1, List.append_nil]

theorem GetWallet_of_response (env : Env) (conf : Config) (tok : GoString) (resp : Response)
    (hget : env.get (conf.GetWalletURL tok) = .ok resp) (hs : resp.StatusCode = 200) :
    GetWallet env conf tok =
      match Unmarshal Wallet.shape resp.Body.data with
      | (_, some err) => (none, some err)
      | (wallet, none) =>
        match wallet.Error with
        | some e => (none, some (.errorf (lit "Get wallet failed: " ++ e.Message)))
        | none => (some wallet, none) := by
  simp only [GetWallet, httpGet_of_response env _ resp hget, hs, ne_eq, not_true_eq_false,
    if_false, Option.getD_some, sprintf1, List.append_nil]

/-- C3. When `http.Get` delivers a response with status code `s`, status line `st` and
body bytes `b`: for `s ≠ 200`, `httpGet` returns a nil body and the error
`st ++ ": " ++ b`, and `GetProfile` and `GetWallet` return that error with a nil
entity; for `s = 200`, `httpGet` returns `(b, nil)`. -/
theorem httpGet_status_error (env : Env) (conf : Config) (tok url : GoString) (resp : Response)
    (hget : env.get url = .ok resp) :
    (resp.StatusCode ≠ 200 →
      httpGet env url = (none, some (.errorf (resp.Status ++ lit ": " ++ resp.Body.data))) ∧
      (url = conf.GetProfileURL tok →
        GetProfile env conf tok =
          (none, some (.errorf (resp.Status ++ lit ": " ++ resp.Body.data)))) ∧
      (url = conf.GetWalletURL tok →
        GetWallet env conf tok =
          (none, some (.errorf (resp.Status ++ lit ": " ++ resp.Body.data))))) ∧
    (resp.StatusCode = 200 → httpGet env url = (some resp.Body.data, none)) := by
  refine ⟨fun hs => ⟨?_, fun hu => ?_, fun hu => ?_⟩, fun hs => ?_⟩
  · simp [httpGet_of_response env url resp hget, hs]
  · subst hu
    simp [GetProfile, httpGet_of_response env _ resp hget, hs]
  · subst hu
    simp [GetWallet, httpGet_of_response env _ resp hget, hs]
  · simp [httpGet_of_response env url resp hget, hs]

/-- C3 at the spec's example: status 500 with body `server down` on the profile path. -/
theorem httpGet_status_error_witness :
    httpGet (constEnv (.ok serverDown)) (Config.GetProfileURL ⟨lit "https://h", [], [], []⟩ (lit "T")) =
        (none, some (.errorf (lit "500 Internal Server Error: server down"))) ∧
    GetProfile (constEnv (.ok serverDown)) ⟨lit "https://h", [], [], []⟩ (lit "T") =
        (none, some (.errorf (lit "500 Internal Server Error: server down"))) :=
  have h := (httpGet_status_error (constEnv (.ok serverDown)) ⟨lit "https://h", [], [], []⟩ (lit "T")
    (Config.GetProfileURL ⟨lit "https://h", [], [], []⟩ (lit "T")) serverDown rfl).1 (by decide)
  ⟨h.1, h.2.1 rfl⟩

/-- C9, the code at the failing input: a 200 response whose body stops with a read
error after the bytes `{"code":0` makes `httpGet` return those bytes with a nil error. -/
theorem httpGet_drops_read_error :
    httpGet (constEnv (.ok ⟨200, lit "200 OK",
        ⟨lit "\x7b\"code\":0", some (.transport (lit "unexpected EOF"))⟩⟩)) (lit "https://h/x") =
      (some (lit "\x7b\"code\":0"), none) := by
  decide

/-- C10, the code at the failing input: with platform host `:` the URL does not parse,
`http.NewRequest` returns a nil request, and `GetToken` panics on `hreq.Header.Set`
whatever the network and the code are. -/
theorem GetToken_panics_on_unparsable_host (env : Env) (code : GoString) :
    GetToken env code ⟨lit ":", lit "id", lit "secret", lit "https://app/cb"⟩ = Outcome.panic := by
  simp only [GetToken, NewRequest]
  have h : urlParseError env (Config.GetTokenURL ⟨lit ":", lit "id", lit "secret", lit "https://app/cb"⟩)
      = some (.url (lit "missing protocol scheme")) := by
    simp only [urlParseError]
    rfl
  simp only [h]

theorem storeError_string (o : Option ApiError) (x : GoString) :
    (storeError o 0 (.string x)).1 = some { allocError o with Error := x } ∧
    (storeError o 1 (.string x)).1 = some { allocError o with Description := x } := by
  constructor <;> rfl

theorem decodeMembers_carries {T : Type} (sh : Shape T) (hl : sh.Lawful)
    (kvs : List (GoString × JVal)) (e d : GoString) (t : T) (saved : Option GoError)
    (hk : ∀ kv ∈ kvs, intoEnvelope sh kv.1 = false ∨ kv = (lit "error", JVal.string e) ∨
      kv = (lit "error_description", JVal.string d)) :
    ((allocError (sh.error (decodeMembers sh kvs t saved).1)).Error = e ∨
      ((allocError (sh.error (decodeMembers sh kvs t saved).1)).Error =
          (allocError (sh.error t)).Error ∧ (lit "error", JVal.string e) ∉ kvs)) ∧
    ((allocError (sh.error (decodeMembers sh kvs t saved).1)).Description = d ∨
      ((allocError (sh.error (decodeMembers sh kvs t saved).1)).Description =
          (allocError (sh.error t)).Description ∧
        (lit "error_description", JVal.string d) ∉ kvs)) := by
  have ke : intoEnvelope sh (lit "error") = true := by simp [intoEnvelope, hl.field_error]
  have kd : intoEnvelope sh (lit "error_description") = true := by
    simp [intoEnvelope, hl.field_description]
  induction kvs generalizing t saved with
  | nil => simp [decodeMembers]
  | cons kv rest ih =>
    have hk' := fun x hx => hk x (List.mem_cons_of_mem _ hx)
    rcases hk kv (List.mem_cons_self _ _) with h | h | h
    · obtain ⟨k, v⟩ := kv
      have hne1 : (lit "error", JVal.string e) ≠ (k, v) := by
        intro he; rw [← (Prod.mk.inj he).1, ke] at h; simp at h
      have hne2 : (lit "error_description", JVal.string d) ≠ (k, v) := by
        intro he; rw [← (Prod.mk.inj he).1, kd] at h; simp at h
      simp only [List.mem_cons, not_or]
      cases hf : findField sh.fields k with
      | none =>
        rw [decodeMembers_cons_none sh k v rest t saved hf]
        obtain ⟨i1, i2⟩ := ih t saved hk'
        exact ⟨i1.imp_right (fun x => ⟨x.1, hne1, x.2⟩), i2.imp_right (fun x => ⟨x.1, hne2, x.2⟩)⟩
      | some i =>
        have hi : ¬ i < 2 := by simpa [intoEnvelope, hf] using h
        rw [decodeMembers_cons_some sh k v rest t saved i hf]
        obtain ⟨i1, i2⟩ := ih (sh.set t i v).1 (saved.orElse fun _ => (sh.set t i v).2) hk'
        rw [hl.set_other t i v hi] at i1 i2
        exact ⟨i1.imp_right (fun x => ⟨x.1, hne1, x.2⟩), i2.imp_right (fun x => ⟨x.1, hne2, x.2⟩)⟩
    · subst h
      rw [decodeMembers_cons_some sh _ _ rest t saved 0 hl.field_error]
      obtain ⟨i1, i2⟩ := ih (sh.set t 0 (.string e)).1
        (saved.orElse fun _ => (sh.set t 0 (.string e)).2) hk'
      rw [hl.set_envelope t 0 _ (by decide), (storeError_string _ e).1] at i1 i2
      simp only [List.mem_cons, not_or]
      refine ⟨Or.inl (i1.elim id (fun x => x.1)), i2.imp_right (fun x => ⟨x.1, by simp [lit], x.2⟩)⟩
    · subst h
      rw [decodeMembers_cons_some sh _ _ rest t saved 1 hl.field_description]
      obtain ⟨i1, i2⟩ := ih (sh.set t 1 (.string d)).1
        (saved.orElse fun _ => (sh.set t 1 (.string d)).2) hk'
      rw [hl.set_envelope t 1 _ (by decide), (storeError_string _ d).2] at i1 i2
      simp only [List.mem_cons, not_or]
      refine ⟨i1.imp_right (fun x => ⟨x.1, by simp [lit], x.2⟩), Or.inl (i2.elim id (fun x => x.1))⟩

/-- Members that carry the error `e` with description `d` decode into the envelope
`(e, d)`. -/
theorem decodeMembers_envelope {T : Type} (sh : Shape T) (hl : sh.Lawful)
    (kvs : List (GoString × JVal)) (e d : GoString) (hc : CarriesError kvs e d) :
    sh.error (decodeMembers sh kvs sh.zero none).1 = some ⟨e, d⟩ := by
  obtain ⟨c1, c2, c3⟩ := hc
  simp only [← hl.envelope_key] at c3
  obtain ⟨i1, i2⟩ := decodeMembers_carries sh hl kvs e d sh.zero none c3
  have hne : sh.error (decodeMembers sh kvs sh.zero none).1 ≠ none := by
    intro h
    have := ((decodeMembers_error sh hl kvs sh.zero none).1 h).2 _ c1
    simp [intoEnvelope, hl.field_error] at this
  cases hx : sh.error (decodeMembers sh kvs sh.zero none).1 with
  | none => exact absurd hx hne
  | some x =>
    rw [hx] at i1 i2
    simp only [allocError, Option.getD_some, hl.zero_error, Option.getD_none] at i1 i2
    have h1 : x.Error = e := i1.elim id (fun y => absurd c1 y.2)
    have h2 : x.Description = d := by
      rcases i2 with y | y
      · exact y
      · rcases c2 with z | z
        · exact absurd z y.2
        · rw [y.1, z]
    cases x
    simp_all

theorem Decode_eq {T : Type} (sh : Shape T) (b : BodyStream) (data : GoString)
    (h : readValue b = .ok data) : Decode sh b = unmarshalValue sh data := by
  simp only [Decode, h]

theorem Unmarshal_ok {T : Type} (sh : Shape T) (data : GoString)
    (h : (Unmarshal sh data).2 = none) :
    checkValid data = none ∧ Unmarshal sh data = unmarshalValue sh data := by
  unfold Unmarshal at h ⊢
  cases hc : checkValid data with
  | none => simp
  | some e => rw [hc] at h; simp at h

/-- C1. For each of the three operations: when the response body decodes and its object
carries the error string `e` with description `d` (`d` empty when there is no
description), the operation returns a nil entity and the error
`"Get token failed: "` / `"Get profile failed: "` / `"Get wallet failed: "` followed by
`e ++ ": " ++ d`. -/
theorem protocol_error_message (env : Env) (conf : Config) (code tok : GoString)
    (resp : Response) (e d : GoString) :
    (urlParseError env conf.GetTokenURL = none →
      env.doRequest tokenClient (tokenRequest code conf) = .ok resp →
      ∀ data, readValue resp.Body = .ok data → (unmarshalValue Token.shape data).2 = none →
        CarriesError (membersOf data) e d →
        GetToken env code conf =
          .returned none (some (.errorf (lit "Get token failed: " ++ e ++ lit ": " ++ d)))) ∧
    (env.get (conf.GetProfileURL tok) = .ok resp → resp.StatusCode = 200 →
      (Unmarshal Profile.shape resp.Body.data).2 = none →
      CarriesError (membersOf resp.Body.data) e d →
      GetProfile env conf tok =
        (none, some (.errorf (lit "Get profile failed: " ++ e ++ lit ": " ++ d)))) ∧
    (env.get (conf.GetWalletURL tok) = .ok resp → resp.StatusCode = 200 →
      (Unmarshal Wallet.shape resp.Body.data).2 = none →
      CarriesError (membersOf resp.Body.data) e d →
      GetWallet env conf tok =
        (none, some (.errorf (lit "Get wallet failed: " ++ e ++ lit ": " ++ d)))) := by
  refine ⟨fun hreq hdo data hread hok hc => ?_, fun hget hs hok hc => ?_,
    fun hget hs hok hc => ?_⟩
  · have henv := decodeMembers_envelope Token.shape token_lawful _ e d hc
    rw [← unmarshalValue_ok Token.shape data hok] at henv
    rw [GetToken_of_response env code conf resp hreq hdo, Decode_eq _ _ data hread]
    rcases hu : unmarshalValue Token.shape data with ⟨t, err⟩
    rw [hu] at hok henv
    simp only [] at hok
    subst hok
    have ht : t.Error = some ⟨e, d⟩ := henv
    simp only [ht, ApiError.Message, List.append_assoc]
  · obtain ⟨-, hu⟩ := Unmarshal_ok _ _ hok
    have henv := decodeMembers_envelope Profile.shape profile_lawful _ e d hc
    rw [hu] at hok
    rw [← unmarshalValue_ok Profile.shape _ hok, ← hu] at henv
    rw [← hu] at hok
    rw [GetProfile_of_response env conf tok resp hget hs]
    rcases hx : Unmarshal Profile.shape resp.Body.data with ⟨t, err⟩
    rw [hx] at hok henv
    simp only [] at hok
    subst hok
    have ht : t.Error = some ⟨e, d⟩ := henv
    simp only [ht, ApiError.Message, List.append_assoc]
  · obtain ⟨-, hu⟩ := Unmarshal_ok _ _ hok
    have henv := decodeMembers_envelope Wallet.shape wallet_lawful _ e d hc
    rw [hu] at hok
    rw [← unmarshalValue_ok Wallet.shape _ hok, ← hu] at henv
    rw [← hu] at hok
    rw [GetWallet_of_response env conf tok resp hget hs]
    rcases hx : Unmarshal Wallet.shape resp.Body.data with ⟨t, err⟩
    rw [hx] at hok henv
    simp only [] at hok
    subst hok
    have ht : t.Error = some ⟨e, d⟩ := henv
    simp only [ht, ApiError.Message, List.append_assoc]

/-- C1 at the body `{"error":"invalid_grant","error_description":"bad code"}` with
status 200, for the three operations. -/
theorem protocol_error_message_witness :
    GetToken (constEnv (.ok (ok200 errorBody))) (lit "c0de") exConf =
      .returned none (some (.errorf (lit "Get token failed: invalid_grant: bad code"))) ∧
    GetProfile (constEnv (.ok (ok200 errorBody))) exConf (lit "T") =
      (none, some (.errorf (lit "Get profile failed: invalid_grant: bad code"))) ∧
    GetWallet (constEnv (.ok (ok200 errorBody))) exConf (lit "T") =
      (none, some (.errorf (lit "Get wallet failed: invalid_grant: bad code"))) :=
  have h := protocol_error_message (constEnv (.ok (ok200 errorBody))) exConf (lit "c0de") (lit "T")
    (ok200 errorBody) (lit "invalid_grant") (lit "bad code")
  ⟨h.1 (by decide) rfl errorBody rfl (by decide) ⟨by decide, Or.inl (by decide), by decide⟩,
   h.2.1 rfl rfl (by decide) ⟨by decide, Or.inl (by decide), by decide⟩,
   h.2.2 rfl rfl (by decide) ⟨by decide, Or.inl (by decide), by decide⟩⟩

/-- C2, the claim at the body `{"error":"","code":0}` with status 200: the body decodes,
the decoded error and description are both empty, and `GetProfile` still returns a
nil entity and an error. -/
theorem empty_error_key_fails :
    (Unmarshal Profile.shape emptyErrorBody).2 = none ∧
    (Unmarshal Profile.shape emptyErrorBody).1.Error = some ⟨[], []⟩ ∧
    GetProfile (constEnv (.ok (ok200 emptyErrorBody))) exConf (lit "T") =
      (none, some (.errorf (lit "Get profile failed: : "))) := by
  decide

theorem error_none_iff {T : Type} (sh : Shape T) (hl : sh.Lawful) (data : GoString)
    (hok : (unmarshalValue sh data).2 = none) :
    sh.error (unmarshalValue sh data).1 = none ↔
      ∀ kv ∈ membersOf data, isErrorKey kv.1 = false := by
  rw [unmarshalValue_ok sh data hok, decodeMembers_error sh hl]
  simp [hl.zero_error, hl.envelope_key]

/-- C2, amended. For each of the three operations, when the response body decodes into
the struct `t` without error: the operation returns `t` with a nil error if and
only if no key of the JSON object matches `error` or `error_description` (up to
the case of letters, as `encoding/json` matches names); a key that is present
allocates the envelope whatever its value. -/
theorem success_iff_no_error_key (env : Env) (conf : Config) (code tok : GoString)
    (resp : Response) :
    (urlParseError env conf.GetTokenURL = none →
      env.doRequest tokenClient (tokenRequest code conf) = .ok resp →
      ∀ data t, readValue resp.Body = .ok data → unmarshalValue Token.shape data = (t, none) →
        (GetToken env code conf = .returned (some t) none ↔
          ∀ kv ∈ membersOf data, isErrorKey kv.1 = false)) ∧
    (env.get (conf.GetProfileURL tok) = .ok resp → resp.StatusCode = 200 →
      ∀ p, Unmarshal Profile.shape resp.Body.data = (p, none) →
        (GetProfile env conf tok = (some p, none) ↔
          ∀ kv ∈ membersOf resp.Body.data, isErrorKey kv.1 = false)) ∧
    (env.get (conf.GetWalletURL tok) = .ok resp → resp.StatusCode = 200 →
      ∀ w, Unmarshal Wallet.shape resp.Body.data = (w, none) →
        (GetWallet env conf tok = (some w, none) ↔
          ∀ kv ∈ membersOf resp.Body.data, isErrorKey kv.1 = false)) := by
  refine ⟨fun hreq hdo data t hread hu => ?_, fun hget hs p hu => ?_, fun hget hs w hu => ?_⟩
  · have h := error_none_iff Token.shape token_lawful data (by rw [hu])
    rw [hu] at h
    rw [GetToken_of_response env code conf resp hreq hdo, Decode_eq _ _ data hread, hu, ← h]
    change (match t.Error with
      | some e => Outcome.returned none (some (.errorf (lit "Get token failed: " ++ e.Message)))
      | none => Outcome.returned (some t) none) = _ ↔ t.Error = none
    cases t.Error <;> simp
  · obtain ⟨-, hu'⟩ := Unmarshal_ok Profile.shape resp.Body.data (by rw [hu])
    have h := error_none_iff Profile.shape profile_lawful resp.Body.data (by rw [← hu', hu])
    rw [← hu', hu] at h
    rw [GetProfile_of_response env conf tok resp hget hs, hu, ← h]
    change (match p.Error with
      | some e => ((none : Option Profile), some (GoError.errorf (lit "Get profile failed: " ++ e.Message)))
      | none => (some p, none)) = _ ↔ p.Error = none
    cases p.Error <;> simp
  · obtain ⟨-, hu'⟩ := Unmarshal_ok Wallet.shape resp.Body.data (by rw [hu])
    have h := error_none_iff Wallet.shape wallet_lawful resp.Body.data (by rw [← hu', hu])
    rw [← hu', hu] at h
    rw [GetWallet_of_response env conf tok resp hget hs, hu, ← h]
    change (match w.Error with
      | some e => ((none : Option Wallet), some (GoError.errorf (lit "Get wallet failed: " ++ e.Message)))
      | none => (some w, none)) = _ ↔ w.Error = none
    cases w.Error <;> simp

/-- C2 (amended) at a body without an envelope key, status 200: the three operations
return the decoded structs. -/
theorem success_iff_no_error_key_witness :
    GetToken (constEnv (.ok (ok200 plainBody))) (lit "c0de") exConf =
      .returned (some ⟨none, lit "tok1", [], 0, []⟩) none ∧
    GetProfile (constEnv (.ok (ok200 plainBody))) exConf (lit "T") =
      (some ⟨none, 0, 7, [], [], []⟩, none) ∧
    GetWallet (constEnv (.ok (ok200 plainBody))) exConf (lit "T") =
      (some ⟨none, 0, lit "Q", ⟨false, 6755399441055744, -52⟩⟩, none) :=
  have h := success_iff_no_error_key (constEnv (.ok (ok200 plainBody))) exConf (lit "c0de")
    (lit "T") (ok200 plainBody)
  ⟨(h.1 (by decide) rfl plainBody _ rfl (by decide)).2 (by decide),
   (h.2.1 rfl rfl _ (by decide)).2 (by decide),
   (h.2.2 rfl rfl _ (by decide)).2 (by decide)⟩

theorem withStatus_parse (env : Env) (s : Int) (st url : GoString) :
    urlParseError (env.withStatus s st) url = urlParseError env url := rfl

/-- C5. The result of `GetToken` does not depend on the status of the response:
replacing the status code and status line of every response leaves the result
unchanged; for any response (whatever its status) whose body decodes into a token
without envelope, `GetToken` returns that token and a nil error; and `GetToken`
fails on a response exactly when decoding fails or the envelope is populated. -/
theorem GetToken_ignores_status (env : Env) (code : GoString) (conf : Config) :
    (∀ (s : Int) (st : GoString), GetToken (env.withStatus s st) code conf = GetToken env code conf) ∧
    (∀ resp, urlParseError env conf.GetTokenURL = none →
      env.doRequest tokenClient (tokenRequest code conf) = .ok resp →
      (∀ t, Decode Token.shape resp.Body = (t, none) → t.Error = none →
        GetToken env code conf = .returned (some t) none) ∧
      ((∃ err, GetToken env code conf = .returned none (some err)) ↔
        ((Decode Token.shape resp.Body).2 ≠ none ∨
          (Decode Token.shape resp.Body).1.Error ≠ none))) := by
  refine ⟨fun s st => ?_, fun resp hreq hdo => ⟨fun t hd ht => ?_, ?_⟩⟩
  · simp only [GetToken, NewRequest, withStatus_parse]
    cases urlParseError env conf.GetTokenURL with
    | some e => rfl
    | none =>
      simp only [Env.withStatus]
      cases env.doRequest ⟨3 * Second⟩
        (((Request.mk (lit "POST") conf.GetTokenURL [] (tokenForm code conf).Encode).HeaderSet
          (lit "Content-Type") (lit "application/x-www-form-urlencoded")).SetBasicAuth
            conf.ClientID conf.ClientSecret) with
      | error e => rfl
      | ok res => rfl
  · rw [GetToken_of_response env code conf resp hreq hdo, hd]
    simp only [ht]
  · rw [GetToken_of_response env code conf resp hreq hdo]
    rcases Decode Token.shape resp.Body with ⟨t, err⟩
    cases err with
    | some e => simp
    | none =>
      cases ht : t.Error with
      | none => simp [ht]
      | some a => simp [ht]

/-- C5 at a response with status 500 whose body is the spec's token: the token is
returned with a nil error. -/
theorem GetToken_ignores_status_witness :
    GetToken (constEnv (.ok ⟨500, lit "500 Internal Server Error", ⟨tokenBody, none⟩⟩))
        (lit "c0de") exConf =
      .returned (some ⟨none, lit "tok1", lit "bearer", 3600, lit "r1"⟩) none :=
  ((GetToken_ignores_status
    (constEnv (.ok ⟨500, lit "500 Internal Server Error", ⟨tokenBody, none⟩⟩)) (lit "c0de")
    exConf).2 ⟨500, lit "500 Internal Server Error", ⟨tokenBody, none⟩⟩ (by decide) rfl).1
    _ (by decide) rfl

theorem membersOf_object (data : GoString) (h : membersOf data ≠ []) :
    ∃ rest, skipSpace data = 123 :: rest := by
  unfold membersOf at h
  split at h
  · rename_i rest hs; exact ⟨rest, hs⟩
  · exact absurd rfl h

/-- C7. For every response to the token request whose body holds a JSON object with the
members `access_token`, `token_type`, `refresh_token` (strings `a`, `tt`, `r`) and
`expires_in` (the integer `n`, within Go's `int`), and with no other member whose
key decodes into a field of `Token` (so no `error` or `error_description`):
`GetToken` returns a nil error and the token `(a, tt, n, r)` with a nil envelope. -/
theorem GetToken_success (env : Env) (code : GoString) (conf : Config) (resp : Response)
    (data a tt r : GoString) (n : Int)
    (hreq : urlParseError env conf.GetTokenURL = none)
    (hdo : env.doRequest tokenClient (tokenRequest code conf) = .ok resp)
    (hread : readValue resp.Body = .ok data)
    (h1 : -(2 : Int) ^ 63 ≤ n) (h2 : n < (2 : Int) ^ 63)
    (hm : ∀ kv ∈ tokenMembers a tt r n, kv ∈ membersOf data)
    (hk : ∀ kv ∈ membersOf data,
      findField Token.fields kv.1 = none ∨ kv ∈ tokenMembers a tt r n) :
    GetToken env code conf = .returned (some ⟨none, a, tt, n, r⟩) none := by
  obtain ⟨rest, hs⟩ := membersOf_object data
    (List.ne_nil_of_mem (hm (lit "access_token", .string a) (by simp [tokenMembers])))
  obtain ⟨d1, d2, d3, d4, d5, d6⟩ :=
    decodeMembers_token a tt r n h1 h2 (membersOf data) hk Token.zero rfl
  rw [GetToken_of_response env code conf resp hreq hdo, Decode_eq _ _ data hread,
    unmarshalValue_object Token.shape data rest hs]
  have e3 := d3.elim id (fun x => absurd (hm _ (by simp [tokenMembers])) x.2)
  have e4 := d4.elim id (fun x => absurd (hm _ (by simp [tokenMembers])) x.2)
  have e5 := d5.elim id (fun x => absurd (hm _ (by simp [tokenMembers])) x.2)
  have e6 := d6.elim id (fun x => absurd (hm _ (by simp [tokenMembers])) x.2)
  have hz : Token.shape.zero = Token.zero := rfl
  rw [hz]
  rcases hres : decodeMembers Token.shape (membersOf data) Token.zero none with ⟨t, err⟩
  rw [hres] at d1 d2 e3 e4 e5 e6
  simp only [] at d1 d2 e3 e4 e5 e6
  subst d1
  simp only [d2]
  cases t
  simp_all

/-- C7 at the spec's example body, with status 200. -/
theorem GetToken_success_witness :
    GetToken (constEnv (.ok (ok200 tokenBody))) (lit "c0de") exConf =
      .returned (some ⟨none, lit "tok1", lit "bearer", 3600, lit "r1"⟩) none :=
  GetToken_success (constEnv (.ok (ok200 tokenBody))) (lit "c0de") exConf (ok200 tokenBody)
    tokenBody (lit "tok1") (lit "bearer") (lit "r1") 3600 (by decide) rfl rfl (by decide)
    (by decide) (by decide) (by decide)

end Oauth2
